import Mathlib

/-!
# DPS5005 front-panel firmware: frame codec, protocol engine, encoders and control loop

A shallow embedding of `Software/main.c`.  Bytes (`uint8_t`) and 16-bit words
(`uint16_t`) are natural numbers, the signed setpoints (`int16_t`) are integers;
a truncation `% 2^w` is written wherever the C code stores into a narrower type.
Arrays are lists read with `getD` and written with `set`.
-/

namespace DPS5005

/-! ## CRC-16 (main.c, lines 423-448) -/

/-- Inner loop of `crc16`: `for (i = 0; i <= 7; i++)`, run for `n` iterations on
the byte `b` and the running `crc`.  Each iteration compares the low bit of
`b ^ (uint8_t)crc` with 1, updates `crc`, and shifts `b` right. -/
def crc16_inner : Nat → Nat → Nat → Nat
  | 0, _, crc => crc
  | n + 1, b, crc =>
    if (b ^^^ (crc % 256)) &&& 1 = 1 then
      crc16_inner n (b >>> 1) ((crc >>> 1) ^^^ 0xA001)
    else
      crc16_inner n (b >>> 1) (crc >>> 1)

/-- Outer loop of `crc16`: `for (j = 0; j <= len-1; j++)`.  `j` is a `uint8_t`
(so `j++` is taken modulo 256) and the test is made on promoted `int`s, hence
`len - 1` is `-1` when `len = 0`.  The first argument bounds the number of
loop tests. -/
def crc16_outer (buf : List Nat) (len : Nat) : Nat → Nat → Nat → Nat
  | 0, _, crc => crc
  | fuel + 1, j, crc =>
    if (j : Int) ≤ (len : Int) - 1 then
      crc16_outer buf len fuel ((j + 1) % 256) (crc16_inner 8 (buf.getD j 0) crc)
    else
      crc

/-- Function `crc16(buf, len)`: `crc` starts at `0xFFFF`; a `uint8_t` length
needs at most 256 loop tests. -/
def crc16 (buf : List Nat) (len : Nat) : Nat :=
  crc16_outer buf len 256 0 0xFFFF

/-- One bit step of the reference MODBUS CRC-16 as the specification words it:
if the low bit is set, shift right one and XOR with `0xA001`, else shift. -/
def refBit (crc : Nat) : Nat :=
  if crc &&& 1 = 1 then (crc >>> 1) ^^^ 0xA001 else crc >>> 1

/-- Reference treatment of one byte: XOR it into the low byte of `crc`, then
eight bit steps. -/
def refByte (crc byte : Nat) : Nat :=
  refBit^[8] (crc ^^^ byte)

/-- Reference MODBUS CRC-16 of a byte sequence, starting from `0xFFFF`. -/
def refCrc16 (data : List Nat) : Nat :=
  data.foldl refByte 0xFFFF

/-! ## Machine integers -/

/-- Conversion of an integer to `int16_t` (two's complement wrap-around). -/
def wrap16 (z : Int) : Int :=
  (z + 32768) % 65536 - 32768

/-! ## The byte channel -/

/-- Modelled from the spec: the flag of `uart.h` (not among the sources) that
`uart_getc` sets in the high byte of its result when no more data is
available. -/
def UART_NO_DATA : Nat := 0x0100

/-- Modelled from the spec: the byte-oriented duplex channel of `uart.h` (not
among the sources).  `rx` holds the bytes received and not yet read, `tx` the
bytes transmitted so far, oldest first. -/
structure Uart where
  rx : List Nat
  tx : List Nat

/-- Modelled from the spec: `uart_getc()` of `uart.h` (not among the sources)
returns the next received byte in the low byte of a 16-bit word, or
`UART_NO_DATA` when no more data is available. -/
def uart_getc (u : Uart) : Nat × Uart :=
  match u.rx with
  | [] => (UART_NO_DATA, u)
  | b :: rest => (b % 256, { u with rx := rest })

/-- Modelled from the spec: `uart_flush()` of `uart.h` (not among the sources)
discards the bytes received and not yet read. -/
def uart_flush (u : Uart) : Uart :=
  { u with rx := [] }

/-- Modelled from the spec: `uart_putc(b)` of `uart.h` (not among the sources)
transmits one byte. -/
def uart_putc (b : Nat) (u : Uart) : Uart :=
  { u with tx := u.tx ++ [b % 256] }

/-- Modelled from the spec: the fixed wait `_delay_ms(500)` after a request,
during which the bytes `resp` sent by the downstream device arrive on the
channel. -/
def delay_rx (resp : List Nat) (u : Uart) : Uart :=
  { u with rx := u.rx ++ resp }

/-! ## Firmware state -/

/-- Constant `BUFFER_SIZE`, 15: the capacity of the receive buffer. -/
def BUFFER_SIZE : Nat := 15

/-- Constant `MAXVOLTS`, 5000. -/
def MAXVOLTS : Int := 5000

/-- Constant `MAXAMPS`, 5000. -/
def MAXAMPS : Int := 5000

/-- Bit number `PD3` of port D (`avr/io.h`), the pin of the CC indicator. -/
def CCLED : Nat := 3

/-- The global variables of `main.c`, the output register `PORTD` and the
channel. -/
structure State where
  tick : Nat
  now : Nat
  Vvalue : Int
  Avalue : Int
  volt10x : Nat
  amps10x : Nat
  state_1 : Nat
  state_2 : Nat
  PORTD : Nat
  uart : Uart

/-- Modelled from the spec: the declarations of `rotary.h` (not among the
sources) that `main.c` uses, taken as parameters: the transition table
`ttable[state][pinstate]` and the bit numbers of the four encoder pins. -/
structure RotaryH where
  ttable : Nat → Nat → Nat
  ENC1_A : Nat
  ENC1_B : Nat
  ENC2_A : Nat
  ENC2_B : Nat

/-! ## Protocol engine (main.c, lines 157-336) -/

/-- The transmit loop `for (j = 0; j <= 7; j++) uart_putc(frame[j]);`. -/
def send8 (frame : List Nat) (u : Uart) : Uart :=
  (List.range 8).foldl (fun u j => uart_putc (frame.getD j 0) u) u

/-- The `while (!(c & UART_NO_DATA))` loop of `readva` and `readcc` (lines
193-203 and 260-270) on the word `c` last read, the index `i` and the buffer
`received`; it returns the final index, the buffer and the channel.  The first
argument bounds the number of loop tests: `i` grows by one per iteration and
the loop is left when it reaches `BUFFER_SIZE`. -/
def recv_loop : Nat → Nat → Nat → List Nat → Uart → Nat × List Nat × Uart
  | 0, _, i, received, u => (i, received, u)
  | fuel + 1, c, i, received, u =>
    if c &&& UART_NO_DATA = 0 then
      let received := received.set i (c % 256)
      let cu := uart_getc u
      let i := (i + 1) % 256
      if i ≥ BUFFER_SIZE then
        (i, received, uart_flush cu.2)
      else
        recv_loop fuel cu.1 i received cu.2
    else
      (i, received, u)

/-- Lines 188-204 (and 255-271): the first `uart_getc`, the guard and the
receive loop, starting from the uninitialised buffer `received`. -/
def recv (received : List Nat) (u : Uart) : Nat × List Nat × Uart :=
  let cu := uart_getc u
  if cu.1 &&& UART_NO_DATA = 0 then
    recv_loop BUFFER_SIZE cu.1 0 received cu.2
  else
    (0, received, cu.2)

/-- The request frame `va` built by `readva` (lines 165-178); the array of ten
is filled element by element, its last two elements are never read. -/
def va_frame : List Nat :=
  ((((((((List.replicate 10 0).set 0 0x01).set 1 0x03).set 2 0x00).set 3 0x00).set 4
    0x00).set 5 0x02).set 6 0xC4).set 7 0x0B

/-- The channel of `readva` after the request, the wait and the receive loop,
with the final index and buffer. -/
def readva_recv (garbage resp : List Nat) (s : State) : Nat × List Nat × Uart :=
  recv garbage (delay_rx resp (send8 va_frame (uart_flush s.uart)))

/-- The buffer `received` of `readva` when the CRC check is made; `garbage` is
the content of the uninitialised array and `resp` the bytes the device sends
during the wait. -/
def readva_received (garbage resp : List Nat) (s : State) : List Nat :=
  (readva_recv garbage resp s).2.1

/-- Function `readva` (lines 157-223): returns `status` and the new state. -/
def readva (garbage resp : List Nat) (s : State) : Nat × State :=
  let r := readva_recv garbage resp s
  let received := r.2.1
  if received.getD 7 0 = crc16 received 7 &&& 0xFF ∧
      received.getD 8 0 = (crc16 received 7 >>> 8) &&& 0xFF then
    (1, { s with
            Vvalue := wrap16 (((received.getD 3 0 <<< 8) ||| received.getD 4 0 : Nat) : Int)
            Avalue := wrap16 (((received.getD 5 0 <<< 8) ||| received.getD 6 0 : Nat) : Int)
            uart := r.2.2 })
  else
    (0, { s with uart := r.2.2 })

/-- The request frame `cc` built by `readcc` (lines 232-245). -/
def cc_frame : List Nat :=
  ((((((((List.replicate 10 0).set 0 0x01).set 1 0x03).set 2 0x00).set 3 0x08).set 4
    0x00).set 5 0x01).set 6 0x05).set 7 0xC8

/-- The channel of `readcc` after the request, the wait and the receive loop,
with the final index and buffer. -/
def readcc_recv (garbage resp : List Nat) (s : State) : Nat × List Nat × Uart :=
  recv garbage (delay_rx resp (send8 cc_frame (uart_flush s.uart)))

/-- The buffer `received` of `readcc` when the CRC check is made. -/
def readcc_received (garbage resp : List Nat) (s : State) : List Nat :=
  (readcc_recv garbage resp s).2.1

/-- Function `readcc` (lines 225-290).  `CCLED_PORT |= (1<<CCLED)` sets and
`CCLED_PORT &= ~(1<<CCLED)` clears bit `CCLED` of the 8-bit register. -/
def readcc (garbage resp : List Nat) (s : State) : State :=
  let r := readcc_recv garbage resp s
  let received := r.2.1
  if received.getD 5 0 = crc16 received 5 &&& 0xFF ∧
      received.getD 6 0 = (crc16 received 5 >>> 8) &&& 0xFF then
    if received.getD 4 0 = 0x01 then
      { s with PORTD := s.PORTD ||| (1 <<< CCLED), uart := r.2.2 }
    else
      { s with PORTD := s.PORTD &&& (0xFF ^^^ (1 <<< CCLED)), uart := r.2.2 }
  else
    { s with uart := r.2.2 }

/-- The frame `volts` built by `setvolts` (lines 294-307). -/
def volts_frame (mVolts : Nat) : List Nat :=
  let volts := ((((((List.replicate 10 0).set 0 0x01).set 1 0x06).set 2 0x00).set 3 0x00).set 4
    ((mVolts >>> 8) &&& 0xFF)).set 5 (mVolts &&& 0xFF)
  let volts := volts.set 6 (crc16 volts 6 &&& 0xFF)
  volts.set 7 ((crc16 volts 6 >>> 8) &&& 0xFF)

/-- Function `setvolts` (lines 292-313). -/
def setvolts (mVolts : Nat) (u : Uart) : Uart :=
  send8 (volts_frame mVolts) u

/-- The frame `amps` built by `setamps` (lines 317-330); the high byte is
`(mAmps>>8)%0xFF`, stored into a `uint8_t`. -/
def amps_frame (mAmps : Nat) : List Nat :=
  let amps := ((((((List.replicate 10 0).set 0 0x01).set 1 0x06).set 2 0x00).set 3 0x01).set 4
    (((mAmps >>> 8) % 0xFF) % 256)).set 5 (mAmps &&& 0xFF)
  let amps := amps.set 6 (crc16 amps 6 &&& 0xFF)
  amps.set 7 ((crc16 amps 6 >>> 8) &&& 0xFF)

/-- Function `setamps` (lines 315-336). -/
def setamps (mAmps : Nat) (u : Uart) : Uart :=
  send8 (amps_frame mAmps) u

/-! ## Encoder decoder (main.c, lines 355-420 and 459-467) -/

/-- The expression `bit_is_set(port, bit) >> bit & 1`, with
`bit_is_set(port, bit) = port & (1 << bit)`. -/
def pin_bit (port bit : Nat) : Nat :=
  ((port &&& (1 <<< bit)) >>> bit) &&& 1

/-- Function `rotary_process_1` (lines 355-365) on the value `pin` of the input
register of encoder 1: returns the result and the new state. -/
def rotary_process_1 (h : RotaryH) (pin : Nat) (s : State) : Nat × State :=
  let pinstate := (pin_bit pin h.ENC1_A <<< 1) ||| pin_bit pin h.ENC1_B
  let s := { s with state_1 := h.ttable (s.state_1 &&& 0xF) pinstate % 256 }
  (s.state_1 &&& 0x30, s)

/-- Function `rotary_process_2` (lines 367-377) on the value `pin` of the input
register of encoder 2. -/
def rotary_process_2 (h : RotaryH) (pin : Nat) (s : State) : Nat × State :=
  let pinstate := (pin_bit pin h.ENC2_A <<< 1) ||| pin_bit pin h.ENC2_B
  let s := { s with state_2 := h.ttable (s.state_2 &&& 0xF) pinstate % 256 }
  (s.state_2 &&& 0x30, s)

/-- The body of `checkV` after the call of `rotary_process_1` (lines 385-397),
for the decoder result `x`. -/
def checkV_body (x : Nat) (s : State) : State :=
  let s := if x = 0x10 then
    { s with Vvalue := wrap16 (s.Vvalue + (s.volt10x : Int)), now := s.tick } else s
  let s := if x = 0x20 then
    { s with Vvalue := wrap16 (s.Vvalue - (s.volt10x : Int)), now := s.tick } else s
  let s := if s.Vvalue ≥ MAXVOLTS then { s with Vvalue := MAXVOLTS } else s
  if s.Vvalue ≤ 0 then { s with Vvalue := 0 } else s

/-- Function `checkV` (lines 379-398). -/
def checkV (h : RotaryH) (pin : Nat) (s : State) : State :=
  let xs := rotary_process_1 h pin s
  checkV_body xs.1 xs.2

/-- The body of `checkA` after the call of `rotary_process_2` (lines 407-419),
for the decoder result `x`. -/
def checkA_body (x : Nat) (s : State) : State :=
  let s := if x = 0x10 then
    { s with Avalue := wrap16 (s.Avalue + (s.amps10x : Int)), now := s.tick } else s
  let s := if x = 0x20 then
    { s with Avalue := wrap16 (s.Avalue - (s.amps10x : Int)), now := s.tick } else s
  let s := if s.Avalue ≥ MAXAMPS then { s with Avalue := MAXAMPS } else s
  if s.Avalue ≤ 0 then { s with Avalue := 0 } else s

/-- Function `checkA` (lines 401-420). -/
def checkA (h : RotaryH) (pin : Nat) (s : State) : State :=
  let xs := rotary_process_2 h pin s
  checkA_body xs.1 xs.2

/-- The interrupt routine `ISR(TIMER0_OVF_vect)` (lines 459-467) for the pin
samples `pin1` and `pin2`: `checkV`, `checkA`, then `tick++` on a `uint16_t`. -/
def TIMER0_OVF (h : RotaryH) (pin1 pin2 : Nat) (s : State) : State :=
  let s := checkA h pin2 (checkV h pin1 s)
  { s with tick := (s.tick + 1) % 65536 }

/-- Successive calls of `checkV`, one per pin sample, oldest first. -/
def runV (h : RotaryH) (pins : List Nat) (s : State) : State :=
  pins.foldl (fun s pin => checkV h pin s) s

/-- Successive calls of `checkA`, one per pin sample, oldest first. -/
def runA (h : RotaryH) (pins : List Nat) (s : State) : State :=
  pins.foldl (fun s pin => checkA h pin s) s

/-- The decoder results of the successive calls of `checkV` in `runV`. -/
def resultsV (h : RotaryH) : List Nat → State → List Nat
  | [], _ => []
  | pin :: pins, s => (rotary_process_1 h pin s).1 :: resultsV h pins (checkV h pin s)

/-- The decoder results of the successive calls of `checkA` in `runA`. -/
def resultsA (h : RotaryH) : List Nat → State → List Nat
  | [], _ => []
  | pin :: pins, s => (rotary_process_2 h pin s).1 :: resultsA h pins (checkA h pin s)

/-! ## Concrete data for the examples -/

/-- A state of the end-to-end scenario: setpoints 1200 mV and 500 mA, voltage
multiplier 10, the indicator off, nothing on the channel. -/
def exampleState : State :=
  { tick := 0, now := 0, Vvalue := 1200, Avalue := 500, volt10x := 10, amps10x := 1,
    state_1 := 0, state_2 := 0, PORTD := 0, uart := ⟨[], []⟩ }

/-- An uninitialised 15-byte buffer that happens to hold `0xAA` everywhere. -/
def exampleGarbage : List Nat := List.replicate 15 0xAA

/-- A valid response to the dual read: 1200 mV and 500 mA, CRC `0xF3FA`. -/
def exampleResponse : List Nat := [0x01, 0x03, 0x04, 0x04, 0xB0, 0x01, 0xF4, 0xFA, 0xF3]

/-- A full-step quadrature table in the format `main.c` expects: the next state
in the low four bits, `0x10` for a completed clockwise detent and `0x20` for a
completed counter-clockwise one.  The table of `rotary.h` is not among the
sources; this one serves the examples only. -/
def exampleTable : List (List Nat) :=
  [[0x0, 0x2, 0x4, 0x0], [0x3, 0x0, 0x1, 0x10], [0x3, 0x2, 0x0, 0x0], [0x3, 0x2, 0x1, 0x0],
    [0x6, 0x0, 0x4, 0x0], [0x6, 0x5, 0x0, 0x20], [0x6, 0x5, 0x4, 0x0]]

/-- Example content of `rotary.h`: `exampleTable`, encoder 1 on bits 1 and 0 and
encoder 2 on bits 3 and 2 of their input registers. -/
def exampleRotary : RotaryH :=
  { ttable := fun state pinstate => (exampleTable.getD state []).getD pinstate 0
    ENC1_A := 1, ENC1_B := 0, ENC2_A := 3, ENC2_B := 2 }

/-- Pin samples of encoder 1 for one clockwise detent with `exampleRotary`. -/
def cwDetent1 : List Nat := [1, 0, 2, 3]

/-- Pin samples of encoder 2 for one clockwise detent with `exampleRotary`. -/
def cwDetent2 : List Nat := [4, 0, 8, 12]

/-! ## Write requests and the record of the receive loop -/

/-- The write request as the specification words it:
`[addr=0x01][func=0x06][reg_hi][reg_lo][val_hi][val_lo][crc_lo][crc_hi]`, both
16-bit fields split big-endian with the bitmask form, the CRC taken over the
first six bytes and sent low byte first. -/
def write_request (reg v : Nat) : List Nat :=
  [0x01, 0x06, (reg >>> 8) &&& 0xFF, reg &&& 0xFF, (v >>> 8) &&& 0xFF, v &&& 0xFF,
    crc16 [0x01, 0x06, (reg >>> 8) &&& 0xFF, reg &&& 0xFF, (v >>> 8) &&& 0xFF, v &&& 0xFF] 6
      &&& 0xFF,
    (crc16 [0x01, 0x06, (reg >>> 8) &&& 0xFF, reg &&& 0xFF, (v >>> 8) &&& 0xFF, v &&& 0xFF] 6
      >>> 8) &&& 0xFF]

/-- The control flow of `recv_loop` with a record of what it does to the buffer
and the channel: the indices `i` of the writes `received[i] = c`, in order,
and whether `uart_flush` is called. -/
def recv_loop_trace : Nat → Nat → Nat → Uart → List Nat × Bool
  | 0, _, _, _ => ([], false)
  | fuel + 1, c, i, u =>
    if c &&& UART_NO_DATA = 0 then
      let cu := uart_getc u
      let i' := (i + 1) % 256
      if i' ≥ BUFFER_SIZE then
        ([i], true)
      else
        (i :: (recv_loop_trace fuel cu.1 i' cu.2).1, (recv_loop_trace fuel cu.1 i' cu.2).2)
    else
      ([], false)

/-- The record of `recv_loop_trace` for lines 188-204 (and 255-271) as a
whole, following `recv`. -/
def recv_trace (u : Uart) : List Nat × Bool :=
  let cu := uart_getc u
  if cu.1 &&& UART_NO_DATA = 0 then
    recv_loop_trace BUFFER_SIZE cu.1 0 cu.2
  else
    ([], false)

/-- The uninitialised receive buffer holding the previous response to the dual
read, left there by an earlier call. -/
def staleGarbage : List Nat :=
  [0x01, 0x03, 0x04, 0x04, 0xB0, 0x01, 0xF4, 0xFA, 0xF3, 0xAA, 0xAA, 0xAA, 0xAA, 0xAA, 0xAA]

/-- The uninitialised receive buffer holding a previous response to the status
read that reports constant-current mode. -/
def staleGarbageCC : List Nat :=
  [0x01, 0x03, 0x02, 0x00, 0x01, 0x79, 0x84, 0xAA, 0xAA, 0xAA, 0xAA, 0xAA, 0xAA, 0xAA, 0xAA]

/-- A frame with one bit flipped: bit `pos % 8` of the byte at index `pos / 8`. -/
def flip_bit (frame : List Nat) (pos : Nat) : List Nat :=
  frame.set (pos / 8) (frame.getD (pos / 8) 0 ^^^ (1 <<< (pos % 8)))

/-- Reference CRC step for a zero byte. -/
def refZero (crc : Nat) : Nat :=
  refByte crc 0

/-! ## Control loop (main.c, lines 102-152) -/

/-- Bit number `PD6` of the switch of encoder 1 (`avr/io.h`). -/
def ENC1_SW : Nat := 6

/-- Bit number `PB2` of the switch of encoder 2 (`avr/io.h`). -/
def ENC2_SW : Nat := 2

/-- The macro `bit_is_clear(sfr, bit)` of avr-libc, `!(sfr & (1 << bit))`. -/
def bit_is_clear (sfr bit : Nat) : Bool :=
  decide (sfr &&& (1 <<< bit) = 0)

/-- The combined toggle value `(1^10)` of `toggleV` and `toggleA` (lines 79-80). -/
def toggle10x : Nat := 1 ^^^ 10

/-- Conversion of an `int16_t` to the `uint16_t` parameter of `setvolts` and
`setamps`. -/
def toU16 (z : Int) : Nat :=
  (z % 65536).toNat

/-- The expression `tick-now` on two `uint16_t` (`int` has 16 bits on the
target, so the difference is taken modulo 65536 and compared unsigned). -/
def elapsed (tick now : Nat) : Nat :=
  (tick + 65536 - now) % 65536

/-- What the timer interrupt does during a wait `_delay_ms(..)`: one run of
`TIMER0_OVF` per millisecond that elapses, each with the values of the input
registers of the two encoders at that moment. -/
def isr_run (h : RotaryH) (samples : List (Nat × Nat)) (s : State) : State :=
  samples.foldl (fun s p => TIMER0_OVF h p.1 p.2 s) s

/-- The variables of `main`: the globals, the shadows `oldVolts` and `oldAmps`,
and, for the statements about the loop, a record `writes` of the calls of
`setvolts` (register `0x0000`) and `setamps` (register `0x0001`) made so far,
each with its argument. -/
structure Main where
  s : State
  oldVolts : Int
  oldAmps : Int
  writes : List (Nat × Nat)

/-- What the outside world does during one pass of the loop.  For each switch:
the value of its input register at the first sample (`sw1`, `sw2`), the
interrupts of the 10 ms debounce wait (`wait1a`, `wait2a`), the value at the
second sample (`sw1b`, `sw2b`) and the interrupts of the 100 ms wait
(`wait1b`, `wait2b`).  For each synchronisation: the interrupts of the 500 ms
wait after the write (`waitV`, `waitA`) and the bytes that arrive during it
(`ackV`, `ackA`), the interrupts of the 500 ms wait inside the confirming
`readva` (`readV`, `readA`), the content of its uninitialised buffer and the
bytes of the response.  For `readcc` likewise (`readC`, `garbageC`, `respC`).
The interrupts of a wait are the pairs of encoder samples, one per
millisecond. -/
structure PassEnv where
  sw1 : Nat
  wait1a : List (Nat × Nat)
  sw1b : Nat
  wait1b : List (Nat × Nat)
  sw2 : Nat
  wait2a : List (Nat × Nat)
  sw2b : Nat
  wait2b : List (Nat × Nat)
  waitV : List (Nat × Nat)
  ackV : List Nat
  readV : List (Nat × Nat)
  garbageV : List Nat
  respV : List Nat
  waitA : List (Nat × Nat)
  ackA : List Nat
  readA : List (Nat × Nat)
  garbageA : List Nat
  respA : List Nat
  readC : List (Nat × Nat)
  garbageC : List Nat
  respC : List Nat

/-- Lines 104-111: the switch of encoder 1 is sampled, debounced for 10 ms and
sampled again; a confirmed press toggles the multiplier with `^=` on a
`uint8_t` and waits 100 ms. -/
def button1 (h : RotaryH) (e : PassEnv) (s : State) : State :=
  if bit_is_clear e.sw1 ENC1_SW then
    if bit_is_clear e.sw1b ENC1_SW then
      isr_run h e.wait1b
        { isr_run h e.wait1a s with
            volt10x := ((isr_run h e.wait1a s).volt10x ^^^ toggle10x) % 256 }
    else isr_run h e.wait1a s
  else s

/-- Lines 113-120: the same for the switch of encoder 2 and `amps10x`. -/
def button2 (h : RotaryH) (e : PassEnv) (s : State) : State :=
  if bit_is_clear e.sw2 ENC2_SW then
    if bit_is_clear e.sw2b ENC2_SW then
      isr_run h e.wait2b
        { isr_run h e.wait2a s with
            amps10x := ((isr_run h e.wait2a s).amps10x ^^^ toggle10x) % 256 }
    else isr_run h e.wait2a s
  else s

/-- Lines 104-120: the two switches. -/
def buttons (h : RotaryH) (e : PassEnv) (m : Main) : Main :=
  { m with s := button2 h e (button1 h e m.s) }

/-- Lines 130-132: `setvolts(Vvalue)`, the 500 ms wait, and the confirming
`readva()`; returns the status and the state after the read.  The interrupts of
the wait inside `readva` are taken before the call: they touch neither the
channel nor the receive buffer, and `readva` assigns the setpoints after its
wait. -/
def volts_confirm (h : RotaryH) (e : PassEnv) (m : Main) : Nat × State :=
  readva e.garbageV e.respV
    (isr_run h e.readV
      (isr_run h e.waitV
        { m.s with uart := delay_rx e.ackV (setvolts (toU16 m.s.Vvalue) m.s.uart) }))

/-- Lines 122-134 for the result `r` of lines 130-132: the two tests, the
record of the call, and the update of the shadow after a successful read. -/
def sync_volts_with (r : Nat × State) (m : Main) : Main :=
  if m.oldVolts ≠ m.s.Vvalue then
    if elapsed m.s.tick m.s.now ≥ 400 then
      if r.1 = 1 then
        { m with s := r.2,
                 writes := m.writes ++ [(0x0000, toU16 m.s.Vvalue)],
                 oldVolts := r.2.Vvalue }
      else
        { m with s := r.2,
                 writes := m.writes ++ [(0x0000, toU16 m.s.Vvalue)] }
    else m
  else m

/-- Lines 122-134: the synchronisation of the voltage. -/
def sync_volts (h : RotaryH) (e : PassEnv) (m : Main) : Main :=
  sync_volts_with (volts_confirm h e m) m

/-- Lines 144-146: `setamps(Avalue)`, the 500 ms wait, and the confirming
`readva()`, as for `volts_confirm`. -/
def amps_confirm (h : RotaryH) (e : PassEnv) (m : Main) : Nat × State :=
  readva e.garbageA e.respA
    (isr_run h e.readA
      (isr_run h e.waitA
        { m.s with uart := delay_rx e.ackA (setamps (toU16 m.s.Avalue) m.s.uart) }))

/-- Lines 136-148 for the result `r` of lines 144-146. -/
def sync_amps_with (r : Nat × State) (m : Main) : Main :=
  if m.oldAmps ≠ m.s.Avalue then
    if elapsed m.s.tick m.s.now ≥ 400 then
      if r.1 = 1 then
        { m with s := r.2,
                 writes := m.writes ++ [(0x0001, toU16 m.s.Avalue)],
                 oldAmps := r.2.Avalue }
      else
        { m with s := r.2,
                 writes := m.writes ++ [(0x0001, toU16 m.s.Avalue)] }
    else m
  else m

/-- Lines 136-148: the synchronisation of the current. -/
def sync_amps (h : RotaryH) (e : PassEnv) (m : Main) : Main :=
  sync_amps_with (amps_confirm h e m) m

/-- The variables of `main` when the test of the voltage (line 123) is reached. -/
def at_volts_test (h : RotaryH) (e : PassEnv) (m : Main) : Main :=
  buttons h e m

/-- The variables of `main` when the test of the current (line 137) is reached. -/
def at_amps_test (h : RotaryH) (e : PassEnv) (m : Main) : Main :=
  sync_volts h e (at_volts_test h e m)

/-- One pass of the `while(1)` loop (lines 102-152): the switches, the two
synchronisations, then `readcc()` with the interrupts of its 500 ms wait.  The
timer interrupt is run where the loop waits; between two waits the statements
are taken in sequence. -/
def pass (h : RotaryH) (e : PassEnv) (m : Main) : Main :=
  { sync_amps h e (at_amps_test h e m) with
      s := readcc e.garbageC e.respC
        (isr_run h e.readC (sync_amps h e (at_amps_test h e m)).s) }

/-- The variables of `main` in the end-to-end scenario after the five detents:
the device last confirmed 1200 mV and 500 mA, the voltage setpoint is 1250 and
the encoder has been quiet for 1000 ticks. -/
def exampleMain : Main :=
  { s := { exampleState with Vvalue := 1250, tick := 1000 }
    oldVolts := 1200, oldAmps := 500, writes := [] }

/-- The state `exampleMain` with a pending change of the current to 600 mA as
well. -/
def exampleMainBoth : Main :=
  { s := { exampleState with Vvalue := 1250, Avalue := 600, tick := 1000 }
    oldVolts := 1200, oldAmps := 500, writes := [] }

/-- The state `exampleMainBoth` with `now = 0` and `tick = 64600`: the last
encoder event is 64600 ticks back, 936 ticks before `tick` wraps. -/
def exampleMainLate : Main :=
  { s := { exampleState with Vvalue := 1250, Avalue := 600, tick := 64600 }
    oldVolts := 1200, oldAmps := 500, writes := [] }

/-- The interrupts of a wait of `n` milliseconds with both encoders at rest for
`exampleRotary` (all four encoder pins high). -/
def quietWait (n : Nat) : List (Nat × Nat) :=
  List.replicate n (3, 12)

/-- A pass in which no switch is pressed, the encoders are at rest, every wait
of 500 ms sees 500 interrupts, and the three reads get the given responses. -/
def quietEnv (respV respA respC : List Nat) : PassEnv :=
  { sw1 := 0xFF, wait1a := quietWait 10, sw1b := 0xFF, wait1b := quietWait 100
    sw2 := 0xFF, wait2a := quietWait 10, sw2b := 0xFF, wait2b := quietWait 100
    waitV := quietWait 500, ackV := [], readV := quietWait 500
    garbageV := exampleGarbage, respV := respV
    waitA := quietWait 500, ackA := [], readA := quietWait 500
    garbageA := exampleGarbage, respA := respA
    readC := quietWait 500, garbageC := exampleGarbage, respC := respC }

/-- A response to the dual read with an invalid CRC. -/
def badResponse : List Nat := [0x01, 0x03, 0x04, 0x04, 0xE2, 0x01, 0xF4, 0x00, 0x00]

/-- A valid response to the dual read: 1250 mV and 500 mA, CRC `0x225B`. -/
def response1250 : List Nat := [0x01, 0x03, 0x04, 0x04, 0xE2, 0x01, 0xF4, 0x5B, 0x22]

/-- A valid response to the dual read: 1200 mV and 600 mA, CRC `0x7EFA`. -/
def response600 : List Nat := [0x01, 0x03, 0x04, 0x04, 0xB0, 0x02, 0x58, 0xFA, 0x7E]

/-! ## A pass with the encoders at rest, for the examples -/

/-- Both encoders of `exampleRotary` in their start state, both setpoints in
range and `tick` a 16-bit value. -/
def at_rest (s : State) : Bool :=
  decide (s.state_1 = 0 ∧ s.state_2 = 0 ∧ 0 ≤ s.Vvalue ∧ s.Vvalue ≤ 5000 ∧
    0 ≤ s.Avalue ∧ s.Avalue ≤ 5000 ∧ s.tick < 65536)

/-- The state after `n` timer interrupts that find the encoders at rest: only
`tick` has advanced. -/
def advance (n : Nat) (s : State) : State :=
  { s with tick := (s.tick + n) % 65536 }

/-- The variables at the test of the current in a pass with `quietEnv`, when
the waits of the voltage synchronisation find the encoders at rest. -/
def rest_amps_test (respV : List Nat) (m : Main) : Main :=
  sync_volts_with
    (readva exampleGarbage respV
      (advance 1000
        { m.s with uart := delay_rx [] (setvolts (toU16 m.s.Vvalue) m.s.uart) })) m

/-- The variables after the current synchronisation in a pass with `quietEnv`,
when the waits so far find the encoders at rest. -/
def rest_synced (respV respA : List Nat) (m : Main) : Main :=
  sync_amps_with
    (readva exampleGarbage respA
      (advance 1000
        { (rest_amps_test respV m).s with
            uart := delay_rx [] (setamps (toU16 (rest_amps_test respV m).s.Avalue)
              (rest_amps_test respV m).s.uart) })) (rest_amps_test respV m)

/-- The result of a pass with `quietEnv` when every wait finds the encoders at
rest. -/
def rest_pass (respV respA respC : List Nat) (m : Main) : Main :=
  { rest_synced respV respA m with
      s := readcc exampleGarbage respC (advance 500 (rest_synced respV respA m).s) }

/-! ## Helper lemmas on the CRC -/

theorem shiftRight_one_xor (a b : Nat) : (a ^^^ b) >>> 1 = (a >>> 1) ^^^ (b >>> 1) := by
  simp only [Nat.shiftRight_one, Nat.xor_div_two]

theorem low_bit_test (b crc : Nat) :
    ((b ^^^ (crc % 256)) &&& 1 = 1) ↔ ((crc ^^^ b) &&& 1 = 1) := by
  rw [Nat.and_one_is_mod, Nat.and_one_is_mod, Nat.xor_mod_two_eq_one, Nat.xor_mod_two_eq_one]
  have h : crc % 256 % 2 = crc % 2 := by omega
  rw [h]
  tauto

/-- The loop invariant relating the code's inner loop to the reference bit
steps: the reference register is the code's `crc` XOR the not yet consumed
bits of the byte. -/
theorem crc16_inner_xor (n : Nat) : ∀ b crc : Nat,
    refBit^[n] (crc ^^^ b) = crc16_inner n b crc ^^^ (b >>> n) := by
  induction n with
  | zero => intro b crc; simp [crc16_inner]
  | succ n ih =>
    intro b crc
    rw [Function.iterate_succ_apply, crc16_inner]
    have hs : b >>> (n + 1) = (b >>> 1) >>> n := by
      rw [Nat.add_comm, Nat.shiftRight_add]
    by_cases h : (b ^^^ (crc % 256)) &&& 1 = 1
    · have h2 : (crc ^^^ b) &&& 1 = 1 := (low_bit_test b crc).1 h
      rw [if_pos h, hs, ← ih]
      congr 1
      rw [refBit, if_pos h2, shiftRight_one_xor, Nat.xor_assoc, Nat.xor_assoc,
        Nat.xor_comm (b >>> 1)]
    · have h2 : ¬ (crc ^^^ b) &&& 1 = 1 := fun k => h ((low_bit_test b crc).2 k)
      rw [if_neg h, hs, ← ih]
      congr 1
      rw [refBit, if_neg h2, shiftRight_one_xor]

theorem crc16_inner_eq_refByte (b crc : Nat) (hb : b < 256) :
    crc16_inner 8 b crc = refByte crc b := by
  have h := crc16_inner_xor 8 b crc
  have hz : b >>> 8 = 0 := by
    rw [Nat.shiftRight_eq_div_pow]; exact Nat.div_eq_of_lt hb
  rw [hz, Nat.xor_zero] at h
  rw [refByte, h]

/-- The outer loop of `crc16` started at index `j` folds the inner loop over
the bytes `j .. len-1`, whenever the bound on loop tests exceeds `len - j`. -/
theorem crc16_outer_eq (buf : List Nat) (len : Nat) (hlen : len < 256)
    (hbuf : len ≤ buf.length) : ∀ fuel j crc : Nat, j ≤ len → len < j + fuel →
    crc16_outer buf len fuel j crc =
      ((buf.drop j).take (len - j)).foldl (fun c b => crc16_inner 8 b c) crc := by
  intro fuel
  induction fuel with
  | zero => intro j crc h1 h2; omega
  | succ fuel ih =>
    intro j crc h1 h2
    rw [crc16_outer]
    by_cases hj : j < len
    · have hc : (j : Int) ≤ (len : Int) - 1 := by omega
      have hm : (j + 1) % 256 = j + 1 := Nat.mod_eq_of_lt (by omega)
      have hjl : j < buf.length := by omega
      rw [if_pos hc, hm, ih (j + 1) _ (by omega) (by omega)]
      have hd : buf.drop j = buf[j] :: buf.drop (j + 1) := List.drop_eq_getElem_cons hjl
      have hl : len - j = (len - (j + 1)) + 1 := by omega
      rw [hd, hl, List.take_succ_cons, List.foldl_cons, List.getD_eq_getElem buf 0 hjl]
    · have hc : ¬ (j : Int) ≤ (len : Int) - 1 := by omega
      have hl : len - j = 0 := by omega
      rw [if_neg hc, hl, List.take_zero, List.foldl_nil]

/-- Function `crc16` folds the inner loop over the first `len` bytes. -/
theorem crc16_eq_foldl (buf : List Nat) (len : Nat) (hlen : len < 256)
    (hbuf : len ≤ buf.length) :
    crc16 buf len = (buf.take len).foldl (fun c b => crc16_inner 8 b c) 0xFFFF := by
  rw [crc16, crc16_outer_eq buf len hlen hbuf 256 0 0xFFFF (by omega) (by omega)]
  simp

theorem foldl_inner_eq_ref (data : List Nat) (hd : ∀ b ∈ data, b < 256) : ∀ crc : Nat,
    data.foldl (fun c b => crc16_inner 8 b c) crc = data.foldl refByte crc := by
  induction data with
  | nil => intro crc; rfl
  | cons b t ih =>
    intro crc
    rw [List.foldl_cons, List.foldl_cons, crc16_inner_eq_refByte b crc (hd b (by simp))]
    exact ih (fun x hx => hd x (by simp [hx])) _

theorem crc16_inner_lt (n : Nat) : ∀ b crc : Nat, crc < 65536 →
    crc16_inner n b crc < 65536 := by
  induction n with
  | zero => intro b crc h; simpa [crc16_inner] using h
  | succ n ih =>
    intro b crc h
    rw [crc16_inner]
    have h1 : crc >>> 1 < 2 ^ 16 := by
      rw [Nat.shiftRight_eq_div_pow]; omega
    have h2 : (crc >>> 1) ^^^ 0xA001 < 2 ^ 16 := Nat.xor_lt_two_pow h1 (by norm_num)
    split
    · exact ih _ _ h2
    · exact ih _ _ h1

theorem crc16_outer_lt (buf : List Nat) (len : Nat) : ∀ fuel j crc : Nat, crc < 65536 →
    crc16_outer buf len fuel j crc < 65536 := by
  intro fuel
  induction fuel with
  | zero => intro j crc h; simpa [crc16_outer] using h
  | succ fuel ih =>
    intro j crc h
    rw [crc16_outer]
    split
    · exact ih _ _ (crc16_inner_lt 8 _ _ h)
    · exact h

/-- The result of `crc16` fits in 16 bits. -/
theorem crc16_lt (buf : List Nat) (len : Nat) : crc16 buf len < 65536 :=
  crc16_outer_lt buf len 256 0 0xFFFF (by norm_num)

/-! ## Helper lemmas on the channel and the receive loop -/

theorem byte_and_no_data (b : Nat) : (b % 256) &&& UART_NO_DATA = 0 := by
  apply Nat.eq_of_testBit_eq
  intro i
  rw [Nat.testBit_and, show (256 : Nat) = 2 ^ 8 from rfl, Nat.testBit_mod_two_pow,
    show UART_NO_DATA = 2 ^ 8 from rfl, Nat.testBit_two_pow]
  by_cases h : i < 8
  · have : ¬ 8 = i := by omega
    simp [this]
  · simp [h]

theorem set_at_length (pre suf : List Nat) (x v : Nat) :
    (pre ++ x :: suf).set pre.length v = pre ++ v :: suf := by
  induction pre with
  | nil => rfl
  | cons a t ih => simp [List.set, ih]

/-- The receive loop stores the pending bytes, reduced to 8 bits, from index
`pre.length` on, until the channel is empty or the buffer is full, and leaves
the channel empty. -/
theorem recv_loop_spec : ∀ (rest : List Nat) (fuel b : Nat) (pre suf : List Nat) (tx : List Nat),
    pre.length + suf.length = 15 → suf ≠ [] → 15 ≤ pre.length + fuel →
    recv_loop fuel (b % 256) pre.length (pre ++ suf) ⟨rest, tx⟩ =
      (pre.length + min (rest.length + 1) suf.length,
        pre ++ ((b :: rest).take suf.length).map (· % 256) ++
          suf.drop (min (rest.length + 1) suf.length),
        ⟨[], tx⟩) := by
  intro rest
  induction rest with
  | nil =>
    intro fuel b pre suf tx hlen hsuf hfuel
    obtain ⟨x, suf', rfl⟩ := List.exists_cons_of_ne_nil hsuf
    simp only [List.length_cons] at hlen
    obtain ⟨fuel, rfl⟩ : ∃ f, fuel = f + 1 := ⟨fuel - 1, by omega⟩
    rw [recv_loop, if_pos (byte_and_no_data b), set_at_length]
    have hm : (pre.length + 1) % 256 = pre.length + 1 := Nat.mod_eq_of_lt (by omega)
    simp only [hm, uart_getc, uart_flush, Nat.mod_mod]
    by_cases hfull : pre.length + 1 ≥ BUFFER_SIZE
    · rw [if_pos hfull]
      simp
    · rw [if_neg hfull]
      have hB : BUFFER_SIZE = 15 := rfl
      obtain ⟨fuel, rfl⟩ : ∃ f, fuel = f + 1 := ⟨fuel - 1, by omega⟩
      rw [recv_loop, if_neg (by decide)]
      simp
  | cons b2 rest ih =>
    intro fuel b pre suf tx hlen hsuf hfuel
    obtain ⟨x, suf', rfl⟩ := List.exists_cons_of_ne_nil hsuf
    simp only [List.length_cons] at hlen
    obtain ⟨fuel, rfl⟩ : ∃ f, fuel = f + 1 := ⟨fuel - 1, by omega⟩
    rw [recv_loop, if_pos (byte_and_no_data b), set_at_length]
    have hm : (pre.length + 1) % 256 = pre.length + 1 := Nat.mod_eq_of_lt (by omega)
    simp only [hm, uart_getc, uart_flush, Nat.mod_mod]
    have hB : BUFFER_SIZE = 15 := rfl
    by_cases hfull : pre.length + 1 ≥ BUFFER_SIZE
    · rw [if_pos hfull]
      have hs : suf' = [] := List.eq_nil_of_length_eq_zero (by omega)
      subst hs
      simp
    · rw [if_neg hfull]
      have hs : suf' ≠ [] := by
        intro h; subst h; simp at hlen; omega
      have h := ih fuel b2 (pre ++ [b % 256]) suf' tx (by simp; omega) hs (by simp; omega)
      simp only [List.length_append, List.length_singleton, List.append_assoc,
        List.singleton_append] at h
      rw [h]
      simp only [List.length_cons, List.take_succ_cons, List.map_cons, List.append_assoc,
        List.cons_append, List.nil_append]
      refine Prod.ext ?_ (Prod.ext ?_ rfl)
      · simp only; omega
      · simp only
        have hk : min (rest.length + 1 + 1) (suf'.length + 1) =
            min (rest.length + 1) suf'.length + 1 := by omega
        rw [hk, List.drop_succ_cons]

/-- Lines 188-204: the first `min n 15` pending bytes overwrite the head of
the buffer and the channel is left empty. -/
theorem recv_spec (garbage rx tx : List Nat) (hg : garbage.length = 15) :
    recv garbage ⟨rx, tx⟩ =
      (min rx.length 15, (rx.take 15).map (· % 256) ++ garbage.drop (min rx.length 15),
        ⟨[], tx⟩) := by
  cases rx with
  | nil => simp [recv, uart_getc, UART_NO_DATA]
  | cons b rest =>
    have hne : garbage ≠ [] := by
      intro h; subst h; simp at hg
    have h := recv_loop_spec rest 15 b [] garbage tx (by simpa using hg) hne (by simp)
    simp only [List.length_nil, List.nil_append, Nat.zero_add, hg] at h
    simp only [recv, uart_getc]
    rw [if_pos (byte_and_no_data b)]
    show recv_loop 15 (b % 256) 0 garbage ⟨rest, tx⟩ = _
    rw [h]
    simp

theorem uart_getc_tx (u : Uart) : (uart_getc u).2.tx = u.tx := by
  unfold uart_getc; split <;> rfl

theorem recv_loop_tx : ∀ (fuel c i : Nat) (received : List Nat) (u : Uart),
    (recv_loop fuel c i received u).2.2.tx = u.tx := by
  intro fuel
  induction fuel with
  | zero => intro c i received u; rfl
  | succ fuel ih =>
    intro c i received u
    rw [recv_loop]
    split
    · simp only
      split
      · exact uart_getc_tx u
      · rw [ih]; exact uart_getc_tx u
    · rfl

/-- The receive phase transmits nothing. -/
theorem recv_tx (received : List Nat) (u : Uart) : (recv received u).2.2.tx = u.tx := by
  unfold recv
  simp only
  split
  · rw [recv_loop_tx]; exact uart_getc_tx u
  · exact uart_getc_tx u

/-- The transmit loop appends the first eight elements of the frame, as bytes. -/
theorem send8_eq (frame : List Nat) (u : Uart) :
    send8 frame u = ⟨u.rx, u.tx ++ (List.range 8).map (fun j => frame.getD j 0 % 256)⟩ := by
  simp [send8, uart_putc, List.range, List.range.loop]

theorem readva_uart (garbage resp : List Nat) (s : State) :
    (readva garbage resp s).2.uart = (readva_recv garbage resp s).2.2 := by
  unfold readva
  simp only
  split <;> rfl

theorem readcc_uart (garbage resp : List Nat) (s : State) :
    (readcc garbage resp s).uart = (readcc_recv garbage resp s).2.2 := by
  unfold readcc
  simp only
  split
  · split <;> rfl
  · rfl

/-- Function `crc16` reads only the first `len` elements of the buffer. -/
theorem crc16_take (buf : List Nat) (len : Nat) (hlen : len < 256) (hbuf : len ≤ buf.length) :
    crc16 buf len = crc16 (buf.take len) len := by
  rw [crc16_eq_foldl buf len hlen hbuf,
    crc16_eq_foldl (buf.take len) len hlen (by simp [hbuf])]
  rw [List.take_take, Nat.min_self]

theorem and_0xFF_of_lt (n : Nat) (h : n < 256) : n &&& 0xFF = n := by
  have h1 := Nat.and_pow_two_sub_one_eq_mod n 8
  norm_num at h1
  rw [h1]
  exact Nat.mod_eq_of_lt h

theorem and_0xFF_eq_mod (n : Nat) : n &&& 0xFF = n % 256 := by
  have h1 := Nat.and_pow_two_sub_one_eq_mod n 8
  norm_num at h1
  exact h1

theorem shiftRight_8_lt (n : Nat) (h : n < 65536) : n >>> 8 < 256 := by
  rw [Nat.shiftRight_eq_div_pow]; omega

/-- Big-endian recombination of the two bytes of a word. -/
theorem hi_lo_recombine (v : Nat) : ((v >>> 8) <<< 8) ||| (v &&& 0xFF) = v := by
  rw [and_0xFF_eq_mod, Nat.shiftRight_eq_div_pow, Nat.shiftLeft_eq, Nat.mul_comm,
    ← Nat.mul_add_lt_is_or (by omega)]
  omega

theorem write_frame_crc (reg hi lo x y : Nat) :
    crc16 [0x01, 0x06, 0x00, reg, hi, lo, x, y, 0, 0] 6 =
      crc16 [0x01, 0x06, 0x00, reg, hi, lo] 6 := by
  rw [crc16_take _ 6 (by norm_num) (by simp)]
  rfl

/-- When the byte holds the low `n` bits of `crc`, the inner loop only shifts. -/
theorem crc16_inner_self (n : Nat) : ∀ b crc : Nat, b = crc % 2 ^ n →
    crc16_inner n b crc = crc >>> n := by
  induction n with
  | zero => intro b crc _; rfl
  | succ n ih =>
    intro b crc hb
    rw [crc16_inner]
    have hpow : 2 ^ (n + 1) = 2 * 2 ^ n := by rw [pow_succ, Nat.mul_comm]
    have hb2 : b % 2 = crc % 2 := by
      rw [hb, hpow, Nat.mod_mul_right_mod]
    have htest : ¬ (b ^^^ (crc % 256)) &&& 1 = 1 := by
      rw [Nat.and_one_is_mod, Nat.xor_mod_two_eq_one]
      have h : crc % 256 % 2 = crc % 2 := by omega
      rw [h, hb2]
      tauto
    rw [if_neg htest]
    have hnext : b >>> 1 = (crc >>> 1) % 2 ^ n := by
      rw [Nat.shiftRight_one, Nat.shiftRight_one, hb, hpow, Nat.mod_mul_right_div_self]
    rw [ih _ _ hnext, Nat.add_comm n 1, Nat.shiftRight_add]

/-- Feeding the low byte and then the high byte of a 16-bit `crc` to the inner
loop leaves zero. -/
theorem crc16_inner_residue (c : Nat) (hc : c < 65536) :
    crc16_inner 8 (c >>> 8) (crc16_inner 8 (c &&& 0xFF) c) = 0 := by
  rw [crc16_inner_self 8 (c &&& 0xFF) c (by rw [and_0xFF_eq_mod]; rfl)]
  have hlt := shiftRight_8_lt c hc
  rw [crc16_inner_self 8 (c >>> 8) (c >>> 8)
    (by rw [show (2 : Nat) ^ 8 = 256 from rfl, Nat.mod_eq_of_lt hlt])]
  rw [Nat.shiftRight_eq_div_pow]
  exact Nat.div_eq_of_lt hlt

/-- The buffer `readva` checks: the first 15 bytes of the response, reduced to
8 bits, over the uninitialised content. -/
theorem readva_received_eq (garbage resp : List Nat) (s : State) (hg : garbage.length = 15) :
    readva_received garbage resp s =
      (resp.take 15).map (· % 256) ++ garbage.drop (min resp.length 15) := by
  rw [readva_received, readva_recv, send8_eq]
  simp only [uart_flush, delay_rx, List.nil_append]
  rw [recv_spec garbage resp _ hg]

/-- The buffer `readcc` checks. -/
theorem readcc_received_eq (garbage resp : List Nat) (s : State) (hg : garbage.length = 15) :
    readcc_received garbage resp s =
      (resp.take 15).map (· % 256) ++ garbage.drop (min resp.length 15) := by
  rw [readcc_received, readcc_recv, send8_eq]
  simp only [uart_flush, delay_rx, List.nil_append]
  rw [recv_spec garbage resp _ hg]

theorem list_length_seven (p : List Nat) (hp : p.length = 7) :
    ∃ a0 a1 a2 a3 a4 a5 a6 : Nat, p = [a0, a1, a2, a3, a4, a5, a6] := by
  match p, hp with
  | [a0, a1, a2, a3, a4, a5, a6], _ => exact ⟨a0, a1, a2, a3, a4, a5, a6, rfl⟩

theorem map_mod_of_lt (l : List Nat) (h : ∀ b ∈ l, b < 256) : l.map (· % 256) = l := by
  induction l with
  | nil => rfl
  | cons a t ih =>
    rw [List.map_cons, ih (fun b hb => h b (by simp [hb])),
      Nat.mod_eq_of_lt (h a (by simp))]

/-- Big-endian decoding of two bytes. -/
theorem shiftLeft_8_or (a b : Nat) (hb : b < 256) : (a <<< 8) ||| b = a * 256 + b := by
  rw [Nat.shiftLeft_eq, Nat.mul_comm, ← Nat.mul_add_lt_is_or (by omega)]

theorem wrap16_emod (z : Int) : wrap16 z % 65536 = z % 65536 := by
  unfold wrap16; omega

theorem wrap16_of_range (z : Int) (h1 : -32768 ≤ z) (h2 : z ≤ 32767) : wrap16 z = z := by
  unfold wrap16; omega

theorem readva_status_iff (garbage resp : List Nat) (s : State) :
    (readva garbage resp s).1 = 1 ↔
      ((readva_received garbage resp s).getD 7 0 =
          crc16 (readva_received garbage resp s) 7 &&& 0xFF ∧
        (readva_received garbage resp s).getD 8 0 =
          (crc16 (readva_received garbage resp s) 7 >>> 8) &&& 0xFF) := by
  unfold readva readva_received
  simp only
  split
  · rename_i h; exact ⟨fun _ => h, fun _ => rfl⟩
  · rename_i h
    exact ⟨fun h1 => absurd (show (0 : Nat) = 1 from h1) (by decide), fun h2 => absurd h2 h⟩

theorem readva_values (garbage resp : List Nat) (s : State)
    (h : (readva garbage resp s).1 = 1) :
    (readva garbage resp s).2.Vvalue =
        wrap16 ((((readva_received garbage resp s).getD 3 0 <<< 8) |||
          (readva_received garbage resp s).getD 4 0 : Nat) : Int) ∧
      (readva garbage resp s).2.Avalue =
        wrap16 ((((readva_received garbage resp s).getD 5 0 <<< 8) |||
          (readva_received garbage resp s).getD 6 0 : Nat) : Int) := by
  have hc := (readva_status_iff garbage resp s).1 h
  unfold readva_received at hc
  unfold readva readva_received
  simp only
  rw [if_pos hc]
  exact ⟨rfl, rfl⟩

theorem readva_failure (garbage resp : List Nat) (s : State)
    (h : ¬ ((readva_received garbage resp s).getD 7 0 =
          crc16 (readva_received garbage resp s) 7 &&& 0xFF ∧
        (readva_received garbage resp s).getD 8 0 =
          (crc16 (readva_received garbage resp s) 7 >>> 8) &&& 0xFF)) :
    readva garbage resp s = (0, { s with uart := (readva_recv garbage resp s).2.2 }) := by
  unfold readva_received at h
  unfold readva
  simp only
  rw [if_neg h]

/-- A response of seven payload bytes followed by the low and the high byte of
their CRC is accepted, and the two values are decoded from bytes 3 to 6. -/
theorem readva_valid_response (garbage : List Nat) (s : State) (hg : garbage.length = 15)
    (a0 a1 a2 a3 a4 a5 a6 : Nat)
    (hb : ∀ b ∈ [a0, a1, a2, a3, a4, a5, a6], b < 256) :
    (readva garbage ([a0, a1, a2, a3, a4, a5, a6] ++
        [crc16 [a0, a1, a2, a3, a4, a5, a6] 7 &&& 0xFF,
          crc16 [a0, a1, a2, a3, a4, a5, a6] 7 >>> 8]) s).1 = 1 ∧
      (readva garbage ([a0, a1, a2, a3, a4, a5, a6] ++
        [crc16 [a0, a1, a2, a3, a4, a5, a6] 7 &&& 0xFF,
          crc16 [a0, a1, a2, a3, a4, a5, a6] 7 >>> 8]) s).2.Vvalue =
        wrap16 (((a3 <<< 8) ||| a4 : Nat) : Int) ∧
      (readva garbage ([a0, a1, a2, a3, a4, a5, a6] ++
        [crc16 [a0, a1, a2, a3, a4, a5, a6] 7 &&& 0xFF,
          crc16 [a0, a1, a2, a3, a4, a5, a6] 7 >>> 8]) s).2.Avalue =
        wrap16 (((a5 <<< 8) ||| a6 : Nat) : Int) := by
  have hc := crc16_lt [a0, a1, a2, a3, a4, a5, a6] 7
  have hrec : readva_received garbage ([a0, a1, a2, a3, a4, a5, a6] ++
        [crc16 [a0, a1, a2, a3, a4, a5, a6] 7 &&& 0xFF,
          crc16 [a0, a1, a2, a3, a4, a5, a6] 7 >>> 8]) s =
      [a0, a1, a2, a3, a4, a5, a6, crc16 [a0, a1, a2, a3, a4, a5, a6] 7 &&& 0xFF,
        crc16 [a0, a1, a2, a3, a4, a5, a6] 7 >>> 8] ++ garbage.drop 9 := by
    rw [readva_received_eq garbage _ s hg]
    have hall : ∀ b ∈ [a0, a1, a2, a3, a4, a5, a6,
        crc16 [a0, a1, a2, a3, a4, a5, a6] 7 &&& 0xFF,
        crc16 [a0, a1, a2, a3, a4, a5, a6] 7 >>> 8], b < 256 := by
      intro b hbm
      simp only [List.mem_cons, List.mem_singleton, List.not_mem_nil, or_false] at hbm
      rcases hbm with h | h | h | h | h | h | h | h | h
      · exact hb b (by simp [h])
      · exact hb b (by simp [h])
      · exact hb b (by simp [h])
      · exact hb b (by simp [h])
      · exact hb b (by simp [h])
      · exact hb b (by simp [h])
      · exact hb b (by simp [h])
      · rw [h, and_0xFF_eq_mod]; omega
      · rw [h]; exact shiftRight_8_lt _ hc
    have ht : ([a0, a1, a2, a3, a4, a5, a6] ++
        [crc16 [a0, a1, a2, a3, a4, a5, a6] 7 &&& 0xFF,
          crc16 [a0, a1, a2, a3, a4, a5, a6] 7 >>> 8]).take 15 =
        [a0, a1, a2, a3, a4, a5, a6, crc16 [a0, a1, a2, a3, a4, a5, a6] 7 &&& 0xFF,
          crc16 [a0, a1, a2, a3, a4, a5, a6] 7 >>> 8] := rfl
    rw [ht, map_mod_of_lt _ hall]
    rfl
  have hcrc : crc16 ([a0, a1, a2, a3, a4, a5, a6,
        crc16 [a0, a1, a2, a3, a4, a5, a6] 7 &&& 0xFF,
        crc16 [a0, a1, a2, a3, a4, a5, a6] 7 >>> 8] ++ garbage.drop 9) 7 =
      crc16 [a0, a1, a2, a3, a4, a5, a6] 7 := by
    rw [crc16_take _ 7 (by norm_num) (by simp)]
    rfl
  have hst : (readva garbage ([a0, a1, a2, a3, a4, a5, a6] ++
        [crc16 [a0, a1, a2, a3, a4, a5, a6] 7 &&& 0xFF,
          crc16 [a0, a1, a2, a3, a4, a5, a6] 7 >>> 8]) s).1 = 1 := by
    rw [readva_status_iff, hrec, hcrc]
    refine ⟨rfl, ?_⟩
    rw [and_0xFF_of_lt _ (shiftRight_8_lt _ hc)]
    rfl
  have hv := readva_values garbage _ s hst
  rw [hrec] at hv
  exact ⟨hst, hv.1, hv.2⟩

/-! ## Helper lemmas on the encoder decoder -/

/-- The clamping at the end of `checkV` puts the setpoint in range. -/
theorem checkV_body_range (x : Nat) (s : State) :
    0 ≤ (checkV_body x s).Vvalue ∧ (checkV_body x s).Vvalue ≤ 5000 := by
  unfold checkV_body
  simp only [MAXVOLTS]
  split_ifs <;> simp_all <;> omega

/-- The clamping at the end of `checkA` puts the setpoint in range. -/
theorem checkA_body_range (x : Nat) (s : State) :
    0 ≤ (checkA_body x s).Avalue ∧ (checkA_body x s).Avalue ≤ 5000 := by
  unfold checkA_body
  simp only [MAXAMPS]
  split_ifs <;> simp_all <;> omega

theorem checkV_body_frame (x : Nat) (s : State) :
    (checkV_body x s).volt10x = s.volt10x ∧ (checkV_body x s).tick = s.tick ∧
      (checkV_body x s).Avalue = s.Avalue := by
  unfold checkV_body
  simp only
  split_ifs <;> exact ⟨rfl, rfl, rfl⟩

theorem checkA_body_frame (x : Nat) (s : State) :
    (checkA_body x s).amps10x = s.amps10x ∧ (checkA_body x s).tick = s.tick ∧
      (checkA_body x s).Vvalue = s.Vvalue := by
  unfold checkA_body
  simp only
  split_ifs <;> exact ⟨rfl, rfl, rfl⟩

/-- One call of `checkV` on an in-range setpoint with multiplier 1 or 10. -/
theorem checkV_body_step (x : Nat) (s : State) (hV : 0 ≤ s.Vvalue ∧ s.Vvalue ≤ 5000)
    (hm : s.volt10x = 1 ∨ s.volt10x = 10) :
    (x = 0x10 → (checkV_body x s).Vvalue = min (s.Vvalue + (s.volt10x : Int)) 5000 ∧
      (checkV_body x s).now = s.tick) ∧
    (x = 0x20 → (checkV_body x s).Vvalue = max (s.Vvalue - (s.volt10x : Int)) 0 ∧
      (checkV_body x s).now = s.tick) ∧
    (x = 0 → (checkV_body x s).Vvalue = s.Vvalue ∧ (checkV_body x s).now = s.now) := by
  obtain ⟨h0, h1⟩ := hV
  have hm' : (s.volt10x : Int) = 1 ∨ (s.volt10x : Int) = 10 := by
    rcases hm with h | h <;> rw [h] <;> simp
  refine ⟨?_, ?_, ?_⟩
  · intro hx
    subst hx
    have hw : wrap16 (s.Vvalue + (s.volt10x : Int)) = s.Vvalue + (s.volt10x : Int) :=
      wrap16_of_range _ (by omega) (by omega)
    unfold checkV_body
    simp only [MAXVOLTS, hw]
    split_ifs <;> simp_all <;> omega
  · intro hx
    subst hx
    have hw : wrap16 (s.Vvalue - (s.volt10x : Int)) = s.Vvalue - (s.volt10x : Int) :=
      wrap16_of_range _ (by omega) (by omega)
    unfold checkV_body
    simp only [MAXVOLTS, hw]
    split_ifs <;> simp_all <;> omega
  · intro hx
    subst hx
    unfold checkV_body
    simp only [MAXVOLTS]
    split_ifs <;> simp_all <;> omega

/-- One call of `checkA` on an in-range setpoint with multiplier 1 or 10. -/
theorem checkA_body_step (x : Nat) (s : State) (hA : 0 ≤ s.Avalue ∧ s.Avalue ≤ 5000)
    (hm : s.amps10x = 1 ∨ s.amps10x = 10) :
    (x = 0x10 → (checkA_body x s).Avalue = min (s.Avalue + (s.amps10x : Int)) 5000 ∧
      (checkA_body x s).now = s.tick) ∧
    (x = 0x20 → (checkA_body x s).Avalue = max (s.Avalue - (s.amps10x : Int)) 0 ∧
      (checkA_body x s).now = s.tick) ∧
    (x = 0 → (checkA_body x s).Avalue = s.Avalue ∧ (checkA_body x s).now = s.now) := by
  obtain ⟨h0, h1⟩ := hA
  have hm' : (s.amps10x : Int) = 1 ∨ (s.amps10x : Int) = 10 := by
    rcases hm with h | h <;> rw [h] <;> simp
  refine ⟨?_, ?_, ?_⟩
  · intro hx
    subst hx
    have hw : wrap16 (s.Avalue + (s.amps10x : Int)) = s.Avalue + (s.amps10x : Int) :=
      wrap16_of_range _ (by omega) (by omega)
    unfold checkA_body
    simp only [MAXAMPS, hw]
    split_ifs <;> simp_all <;> omega
  · intro hx
    subst hx
    have hw : wrap16 (s.Avalue - (s.amps10x : Int)) = s.Avalue - (s.amps10x : Int) :=
      wrap16_of_range _ (by omega) (by omega)
    unfold checkA_body
    simp only [MAXAMPS, hw]
    split_ifs <;> simp_all <;> omega
  · intro hx
    subst hx
    unfold checkA_body
    simp only [MAXAMPS]
    split_ifs <;> simp_all <;> omega

theorem checkV_range (h : RotaryH) (pin : Nat) (s : State) :
    0 ≤ (checkV h pin s).Vvalue ∧ (checkV h pin s).Vvalue ≤ 5000 :=
  checkV_body_range _ _

theorem checkA_range (h : RotaryH) (pin : Nat) (s : State) :
    0 ≤ (checkA h pin s).Avalue ∧ (checkA h pin s).Avalue ≤ 5000 :=
  checkA_body_range _ _

theorem checkV_frame (h : RotaryH) (pin : Nat) (s : State) :
    (checkV h pin s).volt10x = s.volt10x ∧ (checkV h pin s).tick = s.tick ∧
      (checkV h pin s).Avalue = s.Avalue :=
  checkV_body_frame _ _

theorem checkA_frame (h : RotaryH) (pin : Nat) (s : State) :
    (checkA h pin s).amps10x = s.amps10x ∧ (checkA h pin s).tick = s.tick ∧
      (checkA h pin s).Vvalue = s.Vvalue :=
  checkA_body_frame _ _

theorem checkV_step (h : RotaryH) (pin : Nat) (s : State)
    (hV : 0 ≤ s.Vvalue ∧ s.Vvalue ≤ 5000) (hm : s.volt10x = 1 ∨ s.volt10x = 10) :
    ((rotary_process_1 h pin s).1 = 0x10 →
      (checkV h pin s).Vvalue = min (s.Vvalue + (s.volt10x : Int)) 5000 ∧
        (checkV h pin s).now = s.tick) ∧
    ((rotary_process_1 h pin s).1 = 0x20 →
      (checkV h pin s).Vvalue = max (s.Vvalue - (s.volt10x : Int)) 0 ∧
        (checkV h pin s).now = s.tick) ∧
    ((rotary_process_1 h pin s).1 = 0 →
      (checkV h pin s).Vvalue = s.Vvalue ∧ (checkV h pin s).now = s.now) :=
  checkV_body_step (rotary_process_1 h pin s).1 (rotary_process_1 h pin s).2 hV hm

theorem checkA_step (h : RotaryH) (pin : Nat) (s : State)
    (hA : 0 ≤ s.Avalue ∧ s.Avalue ≤ 5000) (hm : s.amps10x = 1 ∨ s.amps10x = 10) :
    ((rotary_process_2 h pin s).1 = 0x10 →
      (checkA h pin s).Avalue = min (s.Avalue + (s.amps10x : Int)) 5000 ∧
        (checkA h pin s).now = s.tick) ∧
    ((rotary_process_2 h pin s).1 = 0x20 →
      (checkA h pin s).Avalue = max (s.Avalue - (s.amps10x : Int)) 0 ∧
        (checkA h pin s).now = s.tick) ∧
    ((rotary_process_2 h pin s).1 = 0 →
      (checkA h pin s).Avalue = s.Avalue ∧ (checkA h pin s).now = s.now) :=
  checkA_body_step (rotary_process_2 h pin s).1 (rotary_process_2 h pin s).2 hA hm

/-- A run of `checkV` calls whose decoder results are clockwise detents or
nothing adds the multiplier once per detent, up to the maximum. -/
theorem runV_clockwise (h : RotaryH) : ∀ (pins : List Nat) (s : State),
    0 ≤ s.Vvalue ∧ s.Vvalue ≤ 5000 → s.volt10x = 1 ∨ s.volt10x = 10 →
    (∀ r ∈ resultsV h pins s, r = 0 ∨ r = 0x10) →
    (runV h pins s).Vvalue =
      min (s.Vvalue + ((resultsV h pins s).count 0x10 : Int) * (s.volt10x : Int)) 5000 := by
  intro pins
  induction pins with
  | nil =>
    intro s hV _ _
    simp only [runV, resultsV, List.foldl_nil, List.count_nil]
    omega
  | cons pin pins ih =>
    intro s hV hm hr
    have hstep := checkV_step h pin s hV hm
    have hfr := checkV_frame h pin s
    have hrange := checkV_range h pin s
    have hm2 : (checkV h pin s).volt10x = 1 ∨ (checkV h pin s).volt10x = 10 := by
      rw [hfr.1]; exact hm
    have hr2 : ∀ r ∈ resultsV h pins (checkV h pin s), r = 0 ∨ r = 0x10 := by
      intro r hmem
      exact hr r (by simp [resultsV, hmem])
    have hih := ih (checkV h pin s) hrange hm2 hr2
    have hrun : runV h (pin :: pins) s = runV h pins (checkV h pin s) := rfl
    rw [hrun, hih, hfr.1]
    have hres : resultsV h (pin :: pins) s =
        (rotary_process_1 h pin s).1 :: resultsV h pins (checkV h pin s) := rfl
    rw [hres, List.count_cons]
    have hm' : (s.volt10x : Int) = 1 ∨ (s.volt10x : Int) = 10 := by
      rcases hm with k | k <;> rw [k] <;> simp
    have h0 : (rotary_process_1 h pin s).1 = 0 ∨ (rotary_process_1 h pin s).1 = 0x10 :=
      hr _ (by simp [resultsV])
    rcases h0 with k | k
    · have hv := (hstep.2.2 k).1
      rw [hv, k]
      simp only [beq_iff_eq, show ¬ (0 : Nat) = 0x10 from by decide, if_false, Nat.add_zero]
    · have hv := (hstep.1 k).1
      rw [hv, k]
      simp only [beq_self_eq_true, if_true]
      push_cast
      rcases hm' with j | j <;> rw [j] <;> omega

/-- A run of `checkA` calls whose decoder results are clockwise detents or
nothing adds the multiplier once per detent, up to the maximum. -/
theorem runA_clockwise (h : RotaryH) : ∀ (pins : List Nat) (s : State),
    0 ≤ s.Avalue ∧ s.Avalue ≤ 5000 → s.amps10x = 1 ∨ s.amps10x = 10 →
    (∀ r ∈ resultsA h pins s, r = 0 ∨ r = 0x10) →
    (runA h pins s).Avalue =
      min (s.Avalue + ((resultsA h pins s).count 0x10 : Int) * (s.amps10x : Int)) 5000 := by
  intro pins
  induction pins with
  | nil =>
    intro s hA _ _
    simp only [runA, resultsA, List.foldl_nil, List.count_nil]
    omega
  | cons pin pins ih =>
    intro s hA hm hr
    have hstep := checkA_step h pin s hA hm
    have hfr := checkA_frame h pin s
    have hrange := checkA_range h pin s
    have hm2 : (checkA h pin s).amps10x = 1 ∨ (checkA h pin s).amps10x = 10 := by
      rw [hfr.1]; exact hm
    have hr2 : ∀ r ∈ resultsA h pins (checkA h pin s), r = 0 ∨ r = 0x10 := by
      intro r hmem
      exact hr r (by simp [resultsA, hmem])
    have hih := ih (checkA h pin s) hrange hm2 hr2
    have hrun : runA h (pin :: pins) s = runA h pins (checkA h pin s) := rfl
    rw [hrun, hih, hfr.1]
    have hres : resultsA h (pin :: pins) s =
        (rotary_process_2 h pin s).1 :: resultsA h pins (checkA h pin s) := rfl
    rw [hres, List.count_cons]
    have hm' : (s.amps10x : Int) = 1 ∨ (s.amps10x : Int) = 10 := by
      rcases hm with k | k <;> rw [k] <;> simp
    have h0 : (rotary_process_2 h pin s).1 = 0 ∨ (rotary_process_2 h pin s).1 = 0x10 :=
      hr _ (by simp [resultsA])
    rcases h0 with k | k
    · have hv := (hstep.2.2 k).1
      rw [hv, k]
      simp only [beq_iff_eq, show ¬ (0 : Nat) = 0x10 from by decide, if_false, Nat.add_zero]
    · have hv := (hstep.1 k).1
      rw [hv, k]
      simp only [beq_self_eq_true, if_true]
      push_cast
      rcases hm' with j | j <;> rw [j] <;> omega

theorem runV_snoc (h : RotaryH) (pins : List Nat) (pin : Nat) (s : State) :
    runV h (pins ++ [pin]) s = checkV h pin (runV h pins s) := by
  simp [runV, List.foldl_append]

theorem runA_snoc (h : RotaryH) (pins : List Nat) (pin : Nat) (s : State) :
    runA h (pins ++ [pin]) s = checkA h pin (runA h pins s) := by
  simp [runA, List.foldl_append]

/-! ## Helper lemmas on the write frames -/

theorem send8_frame (a0 a1 a2 a3 a4 a5 a6 a7 x y : Nat) (u : Uart)
    (h : ∀ b ∈ [a0, a1, a2, a3, a4, a5, a6, a7], b < 256) :
    (send8 [a0, a1, a2, a3, a4, a5, a6, a7, x, y] u).tx =
      u.tx ++ [a0, a1, a2, a3, a4, a5, a6, a7] := by
  rw [send8_eq]
  simp only [List.range, List.range.loop, List.map, List.getD_cons_zero, List.getD_cons_succ]
  rw [Nat.mod_eq_of_lt (h a0 (by simp)), Nat.mod_eq_of_lt (h a1 (by simp)),
    Nat.mod_eq_of_lt (h a2 (by simp)), Nat.mod_eq_of_lt (h a3 (by simp)),
    Nat.mod_eq_of_lt (h a4 (by simp)), Nat.mod_eq_of_lt (h a5 (by simp)),
    Nat.mod_eq_of_lt (h a6 (by simp)), Nat.mod_eq_of_lt (h a7 (by simp))]

theorem and_0xFF_lt (n : Nat) : n &&& 0xFF < 256 := by
  rw [and_0xFF_eq_mod]; omega

theorem volts_frame_eq (v : Nat) :
    volts_frame v = write_request 0x0000 v ++ [0, 0] := by
  simp only [volts_frame, write_request, List.replicate, List.set, write_frame_crc]
  rfl

theorem amps_frame_eq (a : Nat) (h : a < 0xFF00) :
    amps_frame a = write_request 0x0001 a ++ [0, 0] := by
  have h1 : a >>> 8 < 255 := by
    rw [Nat.shiftRight_eq_div_pow]; omega
  have h2 : ((a >>> 8) % 0xFF) % 256 = (a >>> 8) &&& 0xFF := by
    rw [and_0xFF_eq_mod, Nat.mod_eq_of_lt h1]
  simp only [amps_frame, write_request, List.replicate, List.set, write_frame_crc, h2]
  rfl

theorem write_request_bytes (reg v : Nat) : ∀ b ∈ write_request reg v, b < 256 := by
  intro b hb
  simp only [write_request, List.mem_cons, List.mem_singleton, List.not_mem_nil, or_false] at hb
  rcases hb with h | h | h | h | h | h | h | h <;> rw [h] <;>
    first | exact and_0xFF_lt _ | decide

theorem send8_write_request (reg v : Nat) (u : Uart) :
    (send8 (write_request reg v ++ [0, 0]) u).tx = u.tx ++ write_request reg v :=
  send8_frame _ _ _ _ _ _ _ _ 0 0 u (write_request_bytes reg v)

/-! ## Helper lemmas on the record of the receive loop -/

theorem recv_loop_trace_spec : ∀ (rest : List Nat) (fuel b i : Nat) (tx : List Nat),
    i < 15 → 15 ≤ i + fuel →
    recv_loop_trace fuel (b % 256) i ⟨rest, tx⟩ =
      (List.range' i (min (rest.length + 1) (15 - i)), decide (15 ≤ i + rest.length + 1)) := by
  intro rest
  induction rest with
  | nil =>
    intro fuel b i tx hi hfuel
    obtain ⟨fuel, rfl⟩ : ∃ f, fuel = f + 1 := ⟨fuel - 1, by omega⟩
    rw [recv_loop_trace, if_pos (byte_and_no_data b)]
    have hm : (i + 1) % 256 = i + 1 := Nat.mod_eq_of_lt (by omega)
    have hB : BUFFER_SIZE = 15 := rfl
    simp only [hm, uart_getc, List.length_nil, Nat.zero_add, Nat.add_zero]
    have hk : min 1 (15 - i) = 1 := by omega
    rw [hk]
    by_cases hfull : i + 1 ≥ BUFFER_SIZE
    · rw [if_pos hfull]
      have : 15 ≤ i + 1 := by omega
      simp [List.range', this]
    · rw [if_neg hfull]
      obtain ⟨fuel, rfl⟩ : ∃ f, fuel = f + 1 := ⟨fuel - 1, by omega⟩
      rw [recv_loop_trace, if_neg (by decide)]
      have : ¬ 15 ≤ i + 1 := by omega
      simp [List.range', this]
  | cons b2 rest ih =>
    intro fuel b i tx hi hfuel
    obtain ⟨fuel, rfl⟩ : ∃ f, fuel = f + 1 := ⟨fuel - 1, by omega⟩
    rw [recv_loop_trace, if_pos (byte_and_no_data b)]
    have hm : (i + 1) % 256 = i + 1 := Nat.mod_eq_of_lt (by omega)
    have hB : BUFFER_SIZE = 15 := rfl
    simp only [hm, uart_getc, List.length_cons]
    by_cases hfull : i + 1 ≥ BUFFER_SIZE
    · rw [if_pos hfull]
      have hk : min (rest.length + 1 + 1) (15 - i) = 1 := by omega
      have : 15 ≤ i + (rest.length + 1) + 1 := by omega
      rw [hk]
      simp [List.range', this]
    · rw [if_neg hfull]
      rw [ih fuel b2 (i + 1) tx (by omega) (by omega)]
      have hk : min (rest.length + 1 + 1) (15 - i) =
          min (rest.length + 1) (15 - (i + 1)) + 1 := by
        omega
      rw [hk, List.range'_succ]
      have hd : decide (15 ≤ i + 1 + rest.length + 1) =
          decide (15 ≤ i + (rest.length + 1) + 1) := by
        congr 1
        apply propext
        omega
      rw [hd]

/-- The receive loop writes the indices `0 .. min n 15 - 1` in order and calls
`uart_flush` exactly when `n` is at least 15. -/
theorem recv_trace_spec (rx tx : List Nat) :
    recv_trace ⟨rx, tx⟩ = (List.range (min rx.length 15), decide (15 ≤ rx.length)) := by
  cases rx with
  | nil => simp [recv_trace, uart_getc, UART_NO_DATA]
  | cons b rest =>
    simp only [recv_trace, uart_getc]
    rw [if_pos (byte_and_no_data b)]
    show recv_loop_trace 15 (b % 256) 0 ⟨rest, tx⟩ = _
    rw [recv_loop_trace_spec rest 15 b 0 tx (by omega) (by omega)]
    simp only [List.length_cons, Nat.zero_add, Nat.sub_zero, List.range_eq_range']

/-- The bound on loop tests of `recv_loop` is never what ends the loop: any
bound of at least 15 gives the same result. -/
theorem recv_loop_fuel (garbage rest tx : List Nat) (b fuel : Nat) (hg : garbage.length = 15)
    (hf : 15 ≤ fuel) :
    recv_loop fuel (b % 256) 0 garbage ⟨rest, tx⟩ =
      recv_loop 15 (b % 256) 0 garbage ⟨rest, tx⟩ := by
  have hne : garbage ≠ [] := by
    intro h; subst h; simp at hg
  have h1 := recv_loop_spec rest fuel b [] garbage tx (by simpa using hg) hne (by simpa using hf)
  have h2 := recv_loop_spec rest 15 b [] garbage tx (by simpa using hg) hne (by simp)
  simp only [List.length_nil, List.nil_append] at h1 h2
  rw [h1, h2]

/-! ## Helper lemmas on the linearity of the CRC -/

theorem xor_xor_cancel (a b c : Nat) : (a ^^^ c) ^^^ (b ^^^ c) = a ^^^ b := by
  rw [Nat.xor_assoc, Nat.xor_comm c (b ^^^ c), Nat.xor_assoc b c c, Nat.xor_self, Nat.xor_zero]

theorem xor_swap_inner (a b c d : Nat) : (a ^^^ b) ^^^ (c ^^^ d) = (a ^^^ c) ^^^ (b ^^^ d) := by
  rw [Nat.xor_assoc, Nat.xor_assoc, ← Nat.xor_assoc b c d, Nat.xor_comm b c, Nat.xor_assoc c b d]

theorem xor_eq_self_iff (x d : Nat) (h : x ^^^ d = x) : d = 0 := by
  have h1 : x ^^^ (x ^^^ d) = x ^^^ x := by rw [h]
  rw [← Nat.xor_assoc, Nat.xor_self, Nat.zero_xor] at h1
  exact h1

/-- The reference bit step is linear over XOR. -/
theorem refBit_xor (x y : Nat) : refBit (x ^^^ y) = refBit x ^^^ refBit y := by
  unfold refBit
  simp only [Nat.and_one_is_mod, shiftRight_one_xor]
  by_cases hx : x % 2 = 1 <;> by_cases hy : y % 2 = 1
  · have hxy : ¬ (x ^^^ y) % 2 = 1 := by
      rw [Nat.xor_mod_two_eq_one]; tauto
    rw [if_pos hx, if_pos hy, if_neg hxy, xor_xor_cancel]
  · have hxy : (x ^^^ y) % 2 = 1 := by
      rw [Nat.xor_mod_two_eq_one]; tauto
    rw [if_pos hx, if_neg hy, if_pos hxy, Nat.xor_assoc, Nat.xor_assoc,
      Nat.xor_comm (y >>> 1)]
  · have hxy : (x ^^^ y) % 2 = 1 := by
      rw [Nat.xor_mod_two_eq_one]; tauto
    rw [if_neg hx, if_pos hy, if_pos hxy, Nat.xor_assoc]
  · have hxy : ¬ (x ^^^ y) % 2 = 1 := by
      rw [Nat.xor_mod_two_eq_one]; tauto
    rw [if_neg hx, if_neg hy, if_neg hxy]

theorem refBit_iterate_xor (n : Nat) : ∀ x y : Nat,
    refBit^[n] (x ^^^ y) = refBit^[n] x ^^^ refBit^[n] y := by
  induction n with
  | zero => intro x y; rfl
  | succ n ih =>
    intro x y
    rw [Function.iterate_succ_apply, Function.iterate_succ_apply, Function.iterate_succ_apply,
      refBit_xor, ih]

/-- The reference byte step is linear over XOR in the register and the byte. -/
theorem refByte_xor (c d b e : Nat) :
    refByte (c ^^^ d) (b ^^^ e) = refByte c b ^^^ refByte d e := by
  unfold refByte
  rw [xor_swap_inner, refBit_iterate_xor]

/-- A difference `d` in the register travels through the remaining bytes as
through zero bytes. -/
theorem foldl_refByte_xor (l : List Nat) : ∀ c d : Nat,
    l.foldl refByte (c ^^^ d) = l.foldl refByte c ^^^ refZero^[l.length] d := by
  induction l with
  | nil => intro c d; rfl
  | cons b t ih =>
    intro c d
    rw [List.foldl_cons, List.foldl_cons, List.length_cons, Function.iterate_succ_apply]
    have h : refByte (c ^^^ d) b = refByte c b ^^^ refZero d := by
      have h0 := refByte_xor c d b 0
      rw [Nat.xor_zero] at h0
      exact h0
    rw [h, ih]

/-- Flipping the bits `m` of one byte changes the reference CRC by a value
that depends only on `m` and on the number of bytes that follow. -/
theorem refCrc16_flip (pre rest : List Nat) (b m : Nat) :
    refCrc16 (pre ++ (b ^^^ m) :: rest) =
      refCrc16 (pre ++ b :: rest) ^^^ refZero^[rest.length] (refByte 0 m) := by
  unfold refCrc16
  rw [List.foldl_append, List.foldl_append, List.foldl_cons, List.foldl_cons]
  have h : refByte (List.foldl refByte 0xFFFF pre) (b ^^^ m) =
      refByte (List.foldl refByte 0xFFFF pre) b ^^^ refByte 0 m := by
    have h0 := refByte_xor (List.foldl refByte 0xFFFF pre) 0 b m
    rw [Nat.xor_zero] at h0
    exact h0
  rw [h, foldl_refByte_xor]

/-- A single flipped bit followed by at most six bytes never leaves the CRC
unchanged. -/
theorem single_bit_delta_ne_zero :
    ∀ n : Nat, n < 7 → ∀ j : Nat, j < 8 → refZero^[n] (refByte 0 (1 <<< j)) ≠ 0 := by
  decide

theorem one_shiftLeft_bounds : ∀ j : Nat, j < 8 → 0 < 1 <<< j ∧ 1 <<< j < 256 := by
  decide

theorem xor_lt_256 (a b : Nat) (ha : a < 256) (hb : b < 256) : a ^^^ b < 256 :=
  @Nat.xor_lt_two_pow a b 8 ha hb

theorem xor_ne_self (x m : Nat) (hm : 0 < m) : x ^^^ m ≠ x := by
  intro h
  have := xor_eq_self_iff x m h
  omega

/-- Two 16-bit words with the same low byte and the same high byte are equal. -/
theorem crc_bytes_inj (c d : Nat) (hc : c < 65536) (hd : d < 65536)
    (hlo : c &&& 0xFF = d &&& 0xFF) (hhi : c >>> 8 = (d >>> 8) &&& 0xFF) : c = d := by
  rw [and_0xFF_eq_mod, and_0xFF_eq_mod] at hlo
  rw [and_0xFF_eq_mod, Nat.shiftRight_eq_div_pow, Nat.shiftRight_eq_div_pow] at hhi
  omega

/-- Flipping one bit of a payload byte followed by at most six bytes changes
the result of `crc16`. -/
theorem crc16_flip_ne (pre rest : List Nat) (b j : Nat) (hpre : ∀ x ∈ pre, x < 256)
    (hrest : ∀ x ∈ rest, x < 256) (hb : b < 256) (hj : j < 8) (hr : rest.length < 7)
    (hn : pre.length + rest.length + 1 < 256) :
    crc16 (pre ++ (b ^^^ (1 <<< j)) :: rest) (pre.length + rest.length + 1) ≠
      crc16 (pre ++ b :: rest) (pre.length + rest.length + 1) := by
  have hm := one_shiftLeft_bounds j hj
  have hlen1 : (pre ++ (b ^^^ (1 <<< j)) :: rest).length = pre.length + rest.length + 1 := by
    simp only [List.length_append, List.length_cons]; omega
  have hlen2 : (pre ++ b :: rest).length = pre.length + rest.length + 1 := by
    simp only [List.length_append, List.length_cons]; omega
  have hb1 : ∀ x ∈ pre ++ (b ^^^ (1 <<< j)) :: rest, x < 256 := by
    intro x hx
    simp only [List.mem_append, List.mem_cons] at hx
    rcases hx with h | h | h
    · exact hpre x h
    · rw [h]; exact xor_lt_256 b _ hb hm.2
    · exact hrest x h
  have hb2 : ∀ x ∈ pre ++ b :: rest, x < 256 := by
    intro x hx
    simp only [List.mem_append, List.mem_cons] at hx
    rcases hx with h | h | h
    · exact hpre x h
    · rw [h]; exact hb
    · exact hrest x h
  rw [crc16_eq_foldl _ _ hn (by rw [hlen1]), crc16_eq_foldl _ _ hn (by rw [hlen2]),
    List.take_of_length_le (by rw [hlen1]), List.take_of_length_le (by rw [hlen2]),
    foldl_inner_eq_ref _ hb1, foldl_inner_eq_ref _ hb2]
  have hflip := refCrc16_flip pre rest b (1 <<< j)
  unfold refCrc16 at hflip
  rw [hflip]
  intro heq
  exact single_bit_delta_ne_zero rest.length hr j hj (xor_eq_self_iff _ _ heq)

/-- A payload of at most seven bytes followed by the low and the high byte of
its CRC, with one bit flipped anywhere, no longer passes the CRC check. -/
theorem flipped_frame_fails (p : List Nat) (hp7 : p.length ≤ 7) (hb : ∀ b ∈ p, b < 256)
    (pos : Nat) (hpos : pos < 8 * (p.length + 2)) :
    (flip_bit (p ++ [crc16 p p.length &&& 0xFF, crc16 p p.length >>> 8]) pos).length =
        p.length + 2 ∧
      (∀ b ∈ flip_bit (p ++ [crc16 p p.length &&& 0xFF, crc16 p p.length >>> 8]) pos,
        b < 256) ∧
      ¬ ((flip_bit (p ++ [crc16 p p.length &&& 0xFF, crc16 p p.length >>> 8]) pos).getD
            p.length 0 =
          crc16 ((flip_bit (p ++ [crc16 p p.length &&& 0xFF, crc16 p p.length >>> 8])
            pos).take p.length) p.length &&& 0xFF ∧
        (flip_bit (p ++ [crc16 p p.length &&& 0xFF, crc16 p p.length >>> 8]) pos).getD
            (p.length + 1) 0 =
          (crc16 ((flip_bit (p ++ [crc16 p p.length &&& 0xFF, crc16 p p.length >>> 8])
            pos).take p.length) p.length >>> 8) &&& 0xFF) := by
  have hc := crc16_lt p p.length
  have hj : pos % 8 < 8 := Nat.mod_lt _ (by norm_num)
  have hk : pos / 8 < p.length + 2 := by omega
  have hm := one_shiftLeft_bounds (pos % 8) hj
  have hlo : crc16 p p.length &&& 0xFF < 256 := and_0xFF_lt _
  have hhi : crc16 p p.length >>> 8 < 256 := shiftRight_8_lt _ hc
  have hF : ∀ b ∈ p ++ [crc16 p p.length &&& 0xFF, crc16 p p.length >>> 8], b < 256 := by
    intro b hbm
    simp only [List.mem_append, List.mem_cons, List.mem_singleton, List.not_mem_nil,
      or_false] at hbm
    rcases hbm with h | h | h
    · exact hb b h
    · rw [h]; exact hlo
    · rw [h]; exact hhi
  have hget : ∀ i : Nat,
      (p ++ [crc16 p p.length &&& 0xFF, crc16 p p.length >>> 8]).getD i 0 < 256 := by
    intro i
    rw [List.getD_eq_getElem?_getD]
    cases hi : (p ++ [crc16 p p.length &&& 0xFF, crc16 p p.length >>> 8])[i]? with
    | none => simp
    | some x =>
      simp only [Option.getD_some]
      exact hF x (List.getElem?_mem hi)
  refine ⟨?_, ?_, ?_⟩
  · unfold flip_bit
    rw [List.length_set]
    simp
  · intro b hbm
    unfold flip_bit at hbm
    rcases List.mem_or_eq_of_mem_set hbm with h | h
    · exact hF b h
    · rw [h]; exact xor_lt_256 _ _ (hget _) hm.2
  · unfold flip_bit
    rcases Nat.lt_or_ge (pos / 8) p.length with hlt | hge
    · -- a bit of the payload
      have hset : (p ++ [crc16 p p.length &&& 0xFF, crc16 p p.length >>> 8]).set (pos / 8)
          ((p ++ [crc16 p p.length &&& 0xFF, crc16 p p.length >>> 8]).getD (pos / 8) 0 ^^^
            (1 <<< (pos % 8))) =
          (p.take (pos / 8) ++ (p[pos / 8] ^^^ (1 <<< (pos % 8))) :: p.drop (pos / 8 + 1)) ++
            [crc16 p p.length &&& 0xFF, crc16 p p.length >>> 8] := by
        rw [List.set_append_left _ _ hlt, List.getD_append _ _ _ _ hlt,
          List.getD_eq_getElem p 0 hlt, List.set_eq_take_append_cons_drop, if_pos hlt]
      have hsplit : p = p.take (pos / 8) ++ p[pos / 8] :: p.drop (pos / 8 + 1) := by
        rw [← List.drop_eq_getElem_cons hlt, List.take_append_drop]
      have hlen : (p.take (pos / 8) ++
          (p[pos / 8] ^^^ (1 <<< (pos % 8))) :: p.drop (pos / 8 + 1)).length = p.length := by
        simp only [List.length_append, List.length_take, List.length_cons, List.length_drop]
        omega
      have hn : (p.take (pos / 8)).length + (p.drop (pos / 8 + 1)).length + 1 = p.length := by
        simp only [List.length_take, List.length_drop]
        omega
      rw [hset, List.take_left' hlen, List.getD_append_right _ _ _ _ (by rw [hlen]),
        List.getD_append_right _ _ _ _ (by rw [hlen]; omega), hlen]
      simp only [Nat.sub_self, Nat.add_sub_cancel_left, List.getD_cons_zero,
        List.getD_cons_succ]
      intro hcond
      have hne := crc16_flip_ne (p.take (pos / 8)) (p.drop (pos / 8 + 1)) p[pos / 8] (pos % 8)
        (fun x hx => hb x (List.mem_of_mem_take hx))
        (fun x hx => hb x (List.mem_of_mem_drop hx))
        (hb _ (List.getElem_mem _)) hj
        (by simp only [List.length_drop]; omega) (by omega)
      rw [hn, ← hsplit] at hne
      exact hne (crc_bytes_inj _ _ hc (crc16_lt _ _) hcond.1 hcond.2).symm
    · rcases Nat.eq_or_lt_of_le hge with heq | hgt
      · -- a bit of the low CRC byte
        have hset : (p ++ [crc16 p p.length &&& 0xFF, crc16 p p.length >>> 8]).set (pos / 8)
            ((p ++ [crc16 p p.length &&& 0xFF, crc16 p p.length >>> 8]).getD (pos / 8) 0 ^^^
              (1 <<< (pos % 8))) =
            p ++ [(crc16 p p.length &&& 0xFF) ^^^ (1 <<< (pos % 8)),
              crc16 p p.length >>> 8] := by
          rw [← heq, List.set_append_right _ _ (le_refl _),
            List.getD_append_right _ _ _ _ (le_refl _)]
          simp only [Nat.sub_self, List.getD_cons_zero, List.set_cons_zero]
        rw [hset, List.take_left' rfl, List.getD_append_right _ _ _ _ (le_refl _)]
        simp only [Nat.sub_self, List.getD_cons_zero]
        intro hcond
        exact xor_ne_self _ _ hm.1 hcond.1
      · -- a bit of the high CRC byte
        have heq : pos / 8 = p.length + 1 := by omega
        have hset : (p ++ [crc16 p p.length &&& 0xFF, crc16 p p.length >>> 8]).set (pos / 8)
            ((p ++ [crc16 p p.length &&& 0xFF, crc16 p p.length >>> 8]).getD (pos / 8) 0 ^^^
              (1 <<< (pos % 8))) =
            p ++ [crc16 p p.length &&& 0xFF,
              (crc16 p p.length >>> 8) ^^^ (1 <<< (pos % 8))] := by
          rw [heq, List.set_append_right _ _ (by omega),
            List.getD_append_right _ _ _ _ (by omega)]
          simp only [Nat.add_sub_cancel_left, List.getD_cons_zero, List.getD_cons_succ,
            List.set_cons_succ, List.set_cons_zero]
        rw [hset, List.take_left' rfl, List.getD_append_right _ _ _ _ (le_refl _),
          List.getD_append_right _ _ _ (p.length + 1) (Nat.le_add_right _ _)]
        simp only [Nat.sub_self, Nat.add_sub_cancel_left, List.getD_cons_zero,
          List.getD_cons_succ]
        intro hcond
        rw [and_0xFF_of_lt _ hhi] at hcond
        exact xor_ne_self _ _ hm.1 hcond.2

theorem readcc_failure (garbage resp : List Nat) (s : State)
    (h : ¬ ((readcc_received garbage resp s).getD 5 0 =
          crc16 (readcc_received garbage resp s) 5 &&& 0xFF ∧
        (readcc_received garbage resp s).getD 6 0 =
          (crc16 (readcc_received garbage resp s) 5 >>> 8) &&& 0xFF)) :
    readcc garbage resp s = { s with uart := (readcc_recv garbage resp s).2.2 } := by
  unfold readcc_received at h
  unfold readcc
  simp only
  rw [if_neg h]

/-- A response of `n` bytes, `n` at most 15, is what the buffer starts with. -/
theorem received_short (garbage resp : List Nat) (hb : ∀ b ∈ resp, b < 256)
    (hlen : resp.length ≤ 15) :
    (resp.take 15).map (· % 256) ++ garbage.drop (min resp.length 15) =
      resp ++ garbage.drop resp.length := by
  rw [List.take_of_length_le hlen, map_mod_of_lt resp hb, Nat.min_eq_left hlen]

/-- A 9-byte response whose bytes 7 and 8 are not the CRC of bytes 0 to 6 makes
`readva` return 0 and keep both setpoints. -/
theorem readva_reject (garbage resp : List Nat) (s : State) (hg : garbage.length = 15)
    (hlen : resp.length = 9) (hb : ∀ b ∈ resp, b < 256)
    (hfail : ¬ (resp.getD 7 0 = crc16 (resp.take 7) 7 &&& 0xFF ∧
      resp.getD 8 0 = (crc16 (resp.take 7) 7 >>> 8) &&& 0xFF)) :
    (readva garbage resp s).1 = 0 ∧ (readva garbage resp s).2.Vvalue = s.Vvalue ∧
      (readva garbage resp s).2.Avalue = s.Avalue := by
  have hrec : readva_received garbage resp s = resp ++ garbage.drop resp.length := by
    rw [readva_received_eq garbage resp s hg, received_short garbage resp hb (by omega)]
  have hcrc : crc16 (resp ++ garbage.drop resp.length) 7 = crc16 (resp.take 7) 7 := by
    rw [crc16_take _ 7 (by norm_num) (by simp only [List.length_append]; omega),
      List.take_append_of_le_length (by omega)]
  have h := readva_failure garbage resp s (by
    rw [hrec, hcrc, List.getD_append _ _ _ _ (by omega), List.getD_append _ _ _ _ (by omega)]
    exact hfail)
  rw [h]
  exact ⟨rfl, rfl, rfl⟩

/-- A 7-byte response whose bytes 5 and 6 are not the CRC of bytes 0 to 4 makes
`readcc` leave the output register as it was. -/
theorem readcc_reject (garbage resp : List Nat) (s : State) (hg : garbage.length = 15)
    (hlen : resp.length = 7) (hb : ∀ b ∈ resp, b < 256)
    (hfail : ¬ (resp.getD 5 0 = crc16 (resp.take 5) 5 &&& 0xFF ∧
      resp.getD 6 0 = (crc16 (resp.take 5) 5 >>> 8) &&& 0xFF)) :
    (readcc garbage resp s).PORTD = s.PORTD := by
  have hrec : readcc_received garbage resp s = resp ++ garbage.drop resp.length := by
    rw [readcc_received_eq garbage resp s hg, received_short garbage resp hb (by omega)]
  have hcrc : crc16 (resp ++ garbage.drop resp.length) 5 = crc16 (resp.take 5) 5 := by
    rw [crc16_take _ 5 (by norm_num) (by simp only [List.length_append]; omega),
      List.take_append_of_le_length (by omega)]
  have h := readcc_failure garbage resp s (by
    rw [hrec, hcrc, List.getD_append _ _ _ _ (by omega), List.getD_append _ _ _ _ (by omega)]
    exact hfail)
  rw [h]

/-! ## Helper lemmas on the control loop -/

/-- The unsigned 16-bit difference recovers the number of ticks elapsed, also
across the wrap of `tick`. -/
theorem elapsed_add (T d : Nat) (hT : T < 65536) (hd : d < 65536) :
    elapsed ((T + d) % 65536) T = d := by
  unfold elapsed
  omega

/-- A pass that sees neither switch pressed at the first sample goes straight
to the test of the voltage. -/
theorem buttons_idle (h : RotaryH) (e : PassEnv) (m : Main)
    (h1 : bit_is_clear e.sw1 ENC1_SW = false) (h2 : bit_is_clear e.sw2 ENC2_SW = false) :
    buttons h e m = m := by
  unfold buttons button2 button1
  simp [h1, h2]

theorem sync_volts_idle (h : RotaryH) (e : PassEnv) (m : Main)
    (hn : ¬ (m.oldVolts ≠ m.s.Vvalue ∧ elapsed m.s.tick m.s.now ≥ 400)) :
    sync_volts h e m = m := by
  unfold sync_volts sync_volts_with
  by_cases h1 : m.oldVolts ≠ m.s.Vvalue
  · have h2 : ¬ elapsed m.s.tick m.s.now ≥ 400 := fun k => hn ⟨h1, k⟩
    rw [if_pos h1, if_neg h2]
  · rw [if_neg h1]

/-- With a difference and 400 ticks elapsed, the voltage synchronisation calls
`setvolts(Vvalue)` and `readva()`, and sets the shadow to the `Vvalue` found
after a successful read. -/
theorem sync_volts_fires (h : RotaryH) (e : PassEnv) (m : Main)
    (h1 : m.oldVolts ≠ m.s.Vvalue) (h2 : elapsed m.s.tick m.s.now ≥ 400) :
    (sync_volts h e m).writes = m.writes ++ [(0x0000, toU16 m.s.Vvalue)] ∧
      (sync_volts h e m).s = (volts_confirm h e m).2 ∧
      (sync_volts h e m).oldAmps = m.oldAmps ∧
      ((volts_confirm h e m).1 = 1 →
        (sync_volts h e m).oldVolts = (volts_confirm h e m).2.Vvalue) ∧
      ((volts_confirm h e m).1 ≠ 1 → (sync_volts h e m).oldVolts = m.oldVolts) := by
  unfold sync_volts sync_volts_with
  rw [if_pos h1, if_pos h2]
  by_cases h3 : (volts_confirm h e m).1 = 1
  · rw [if_pos h3]
    exact ⟨rfl, rfl, rfl, fun _ => rfl, fun k => absurd h3 k⟩
  · rw [if_neg h3]
    exact ⟨rfl, rfl, rfl, fun k => absurd k h3, fun _ => rfl⟩

theorem sync_amps_idle (h : RotaryH) (e : PassEnv) (m : Main)
    (hn : ¬ (m.oldAmps ≠ m.s.Avalue ∧ elapsed m.s.tick m.s.now ≥ 400)) :
    sync_amps h e m = m := by
  unfold sync_amps sync_amps_with
  by_cases h1 : m.oldAmps ≠ m.s.Avalue
  · have h2 : ¬ elapsed m.s.tick m.s.now ≥ 400 := fun k => hn ⟨h1, k⟩
    rw [if_pos h1, if_neg h2]
  · rw [if_neg h1]

theorem sync_amps_fires (h : RotaryH) (e : PassEnv) (m : Main)
    (h1 : m.oldAmps ≠ m.s.Avalue) (h2 : elapsed m.s.tick m.s.now ≥ 400) :
    (sync_amps h e m).writes = m.writes ++ [(0x0001, toU16 m.s.Avalue)] ∧
      (sync_amps h e m).s = (amps_confirm h e m).2 ∧
      (sync_amps h e m).oldVolts = m.oldVolts ∧
      ((amps_confirm h e m).1 = 1 →
        (sync_amps h e m).oldAmps = (amps_confirm h e m).2.Avalue) ∧
      ((amps_confirm h e m).1 ≠ 1 → (sync_amps h e m).oldAmps = m.oldAmps) := by
  unfold sync_amps sync_amps_with
  rw [if_pos h1, if_pos h2]
  by_cases h3 : (amps_confirm h e m).1 = 1
  · rw [if_pos h3]
    exact ⟨rfl, rfl, rfl, fun _ => rfl, fun k => absurd h3 k⟩
  · rw [if_neg h3]
    exact ⟨rfl, rfl, rfl, fun k => absurd k h3, fun _ => rfl⟩

theorem sync_amps_oldVolts (h : RotaryH) (e : PassEnv) (m : Main) :
    (sync_amps h e m).oldVolts = m.oldVolts := by
  unfold sync_amps sync_amps_with
  split_ifs <;> rfl

/-- The calls recorded by the voltage synchronisation. -/
theorem sync_volts_writes (h : RotaryH) (e : PassEnv) (m : Main) :
    (sync_volts h e m).writes =
      m.writes ++
        (if m.oldVolts ≠ m.s.Vvalue ∧ elapsed m.s.tick m.s.now ≥ 400 then
          [(0x0000, toU16 m.s.Vvalue)] else []) := by
  by_cases hc : m.oldVolts ≠ m.s.Vvalue ∧ elapsed m.s.tick m.s.now ≥ 400
  · rw [if_pos hc]
    exact (sync_volts_fires h e m hc.1 hc.2).1
  · rw [if_neg hc, List.append_nil, sync_volts_idle h e m hc]

/-- The calls recorded by the current synchronisation. -/
theorem sync_amps_writes (h : RotaryH) (e : PassEnv) (m : Main) :
    (sync_amps h e m).writes =
      m.writes ++
        (if m.oldAmps ≠ m.s.Avalue ∧ elapsed m.s.tick m.s.now ≥ 400 then
          [(0x0001, toU16 m.s.Avalue)] else []) := by
  by_cases hc : m.oldAmps ≠ m.s.Avalue ∧ elapsed m.s.tick m.s.now ≥ 400
  · rw [if_pos hc]
    exact (sync_amps_fires h e m hc.1 hc.2).1
  · rw [if_neg hc, List.append_nil, sync_amps_idle h e m hc]

theorem pass_fields (h : RotaryH) (e : PassEnv) (m : Main) :
    (pass h e m).writes = (sync_amps h e (at_amps_test h e m)).writes ∧
      (pass h e m).oldVolts = (at_amps_test h e m).oldVolts ∧
      (pass h e m).oldAmps = (sync_amps h e (at_amps_test h e m)).oldAmps :=
  ⟨rfl, sync_amps_oldVolts _ _ _, rfl⟩

theorem at_volts_test_fields (h : RotaryH) (e : PassEnv) (m : Main) :
    (at_volts_test h e m).writes = m.writes ∧ (at_volts_test h e m).oldVolts = m.oldVolts ∧
      (at_volts_test h e m).oldAmps = m.oldAmps :=
  ⟨rfl, rfl, rfl⟩

/-- The calls recorded by one pass: a voltage write when, at its test, the
shadow differs and 400 ticks have elapsed, then a current write when, at its
test, the current shadow differs and 400 ticks have elapsed. -/
theorem pass_writes (h : RotaryH) (e : PassEnv) (m : Main) :
    (pass h e m).writes =
      (m.writes ++
        (if (at_volts_test h e m).oldVolts ≠ (at_volts_test h e m).s.Vvalue ∧
            elapsed (at_volts_test h e m).s.tick (at_volts_test h e m).s.now ≥ 400 then
          [(0x0000, toU16 (at_volts_test h e m).s.Vvalue)] else [])) ++
        (if (at_amps_test h e m).oldAmps ≠ (at_amps_test h e m).s.Avalue ∧
            elapsed (at_amps_test h e m).s.tick (at_amps_test h e m).s.now ≥ 400 then
          [(0x0001, toU16 (at_amps_test h e m).s.Avalue)] else []) := by
  rw [(pass_fields h e m).1, sync_amps_writes]
  congr 1
  unfold at_amps_test
  rw [sync_volts_writes, (at_volts_test_fields h e m).1]

theorem checkV_body_keep (x : Nat) (s : State) :
    (checkV_body x s).uart = s.uart ∧ (checkV_body x s).PORTD = s.PORTD ∧
      (checkV_body x s).volt10x = s.volt10x ∧ (checkV_body x s).amps10x = s.amps10x := by
  unfold checkV_body
  simp only
  split_ifs <;> exact ⟨rfl, rfl, rfl, rfl⟩

theorem checkA_body_keep (x : Nat) (s : State) :
    (checkA_body x s).uart = s.uart ∧ (checkA_body x s).PORTD = s.PORTD ∧
      (checkA_body x s).volt10x = s.volt10x ∧ (checkA_body x s).amps10x = s.amps10x := by
  unfold checkA_body
  simp only
  split_ifs <;> exact ⟨rfl, rfl, rfl, rfl⟩

/-- The timer interrupt leaves the channel, the output register and the two
multipliers alone. -/
theorem TIMER0_OVF_fields (h : RotaryH) (p1 p2 : Nat) (s : State) :
    (TIMER0_OVF h p1 p2 s).uart = s.uart ∧ (TIMER0_OVF h p1 p2 s).PORTD = s.PORTD ∧
      (TIMER0_OVF h p1 p2 s).volt10x = s.volt10x ∧
      (TIMER0_OVF h p1 p2 s).amps10x = s.amps10x := by
  have hV := checkV_body_keep (rotary_process_1 h p1 s).1 (rotary_process_1 h p1 s).2
  have hA := checkA_body_keep (rotary_process_2 h p2 (checkV h p1 s)).1
    (rotary_process_2 h p2 (checkV h p1 s)).2
  have e1 : (TIMER0_OVF h p1 p2 s).uart = (checkA h p2 (checkV h p1 s)).uart := rfl
  have e2 : (TIMER0_OVF h p1 p2 s).PORTD = (checkA h p2 (checkV h p1 s)).PORTD := rfl
  have e3 : (TIMER0_OVF h p1 p2 s).volt10x = (checkA h p2 (checkV h p1 s)).volt10x := rfl
  have e4 : (TIMER0_OVF h p1 p2 s).amps10x = (checkA h p2 (checkV h p1 s)).amps10x := rfl
  rw [e1, e2, e3, e4]
  exact ⟨hA.1.trans hV.1, hA.2.1.trans hV.2.1, hA.2.2.1.trans hV.2.2.1,
    hA.2.2.2.trans hV.2.2.2⟩

theorem isr_run_fields (h : RotaryH) (samples : List (Nat × Nat)) : ∀ s : State,
    (isr_run h samples s).uart = s.uart ∧ (isr_run h samples s).PORTD = s.PORTD ∧
      (isr_run h samples s).volt10x = s.volt10x ∧
      (isr_run h samples s).amps10x = s.amps10x := by
  induction samples with
  | nil => intro s; exact ⟨rfl, rfl, rfl, rfl⟩
  | cons p t ih =>
    intro s
    have h1 := ih (TIMER0_OVF h p.1 p.2 s)
    have h2 := TIMER0_OVF_fields h p.1 p.2 s
    have e : isr_run h (p :: t) s = isr_run h t (TIMER0_OVF h p.1 p.2 s) := rfl
    rw [e, h1.1, h1.2.1, h1.2.2.1, h1.2.2.2]
    exact h2

/-! ## Helper lemmas on waits with the encoders at rest -/

theorem rotary_rest_1 (s : State) (h1 : s.state_1 = 0) :
    rotary_process_1 exampleRotary 3 s = (0, s) := by
  obtain ⟨tick, now, V, A, v10, a10, st1, st2, P, u⟩ := s
  simp only at h1
  subst h1
  have ht : exampleRotary.ttable (0 &&& 0xF)
      ((pin_bit 3 exampleRotary.ENC1_A <<< 1) ||| pin_bit 3 exampleRotary.ENC1_B) % 256 = 0 := by
    decide
  unfold rotary_process_1
  simp only [ht]
  rfl

theorem rotary_rest_2 (s : State) (h2 : s.state_2 = 0) :
    rotary_process_2 exampleRotary 12 s = (0, s) := by
  obtain ⟨tick, now, V, A, v10, a10, st1, st2, P, u⟩ := s
  simp only at h2
  subst h2
  have ht : exampleRotary.ttable (0 &&& 0xF)
      ((pin_bit 12 exampleRotary.ENC2_A <<< 1) ||| pin_bit 12 exampleRotary.ENC2_B) % 256 = 0 := by
    decide
  unfold rotary_process_2
  simp only [ht]
  rfl

theorem checkV_body_rest (s : State) (hV : 0 ≤ s.Vvalue ∧ s.Vvalue ≤ 5000) :
    checkV_body 0 s = s := by
  obtain ⟨tick, now, V, A, v10, a10, st1, st2, P, u⟩ := s
  simp only at hV
  unfold checkV_body
  simp only [MAXVOLTS, show ¬ (0 : Nat) = 0x10 from by decide,
    show ¬ (0 : Nat) = 0x20 from by decide, if_false]
  by_cases h5 : V ≥ 5000
  · have : V = 5000 := by omega
    subst this
    simp
  · by_cases h0 : V ≤ 0
    · have : V = 0 := by omega
      subst this
      simp
    · simp [h5, h0]

theorem checkA_body_rest (s : State) (hA : 0 ≤ s.Avalue ∧ s.Avalue ≤ 5000) :
    checkA_body 0 s = s := by
  obtain ⟨tick, now, V, A, v10, a10, st1, st2, P, u⟩ := s
  simp only at hA
  unfold checkA_body
  simp only [MAXAMPS, show ¬ (0 : Nat) = 0x10 from by decide,
    show ¬ (0 : Nat) = 0x20 from by decide, if_false]
  by_cases h5 : A ≥ 5000
  · have : A = 5000 := by omega
    subst this
    simp
  · by_cases h0 : A ≤ 0
    · have : A = 0 := by omega
      subst this
      simp
    · simp [h5, h0]

/-- One interrupt with both encoders of `exampleRotary` at rest and both
setpoints in range only counts the tick. -/
theorem TIMER0_OVF_rest (s : State)
    (hq : s.state_1 = 0 ∧ s.state_2 = 0 ∧ 0 ≤ s.Vvalue ∧ s.Vvalue ≤ 5000 ∧
      0 ≤ s.Avalue ∧ s.Avalue ≤ 5000) :
    TIMER0_OVF exampleRotary 3 12 s = { s with tick := (s.tick + 1) % 65536 } := by
  have hV : checkV exampleRotary 3 s = s := by
    unfold checkV
    rw [rotary_rest_1 s hq.1]
    exact checkV_body_rest s ⟨hq.2.2.1, hq.2.2.2.1⟩
  have hA : checkA exampleRotary 12 s = s := by
    unfold checkA
    rw [rotary_rest_2 s hq.2.1]
    exact checkA_body_rest s ⟨hq.2.2.2.2.1, hq.2.2.2.2.2⟩
  unfold TIMER0_OVF
  simp only [hV, hA]

/-- A wait of `n` interrupts with both encoders of `exampleRotary` at rest and
both setpoints in range only advances `tick` by `n`. -/
theorem isr_run_rest (n : Nat) : ∀ s : State,
    (s.state_1 = 0 ∧ s.state_2 = 0 ∧ 0 ≤ s.Vvalue ∧ s.Vvalue ≤ 5000 ∧
      0 ≤ s.Avalue ∧ s.Avalue ≤ 5000 ∧ s.tick < 65536) →
    isr_run exampleRotary (quietWait n) s = { s with tick := (s.tick + n) % 65536 } := by
  induction n with
  | zero =>
    intro s hq
    obtain ⟨tick, now, V, A, v10, a10, st1, st2, P, u⟩ := s
    simp only at hq
    simp only [quietWait, List.replicate, isr_run, List.foldl_nil, Nat.add_zero]
    rw [Nat.mod_eq_of_lt hq.2.2.2.2.2.2]
  | succ n ih =>
    intro s hq
    have e : isr_run exampleRotary (quietWait (n + 1)) s =
        isr_run exampleRotary (quietWait n) (TIMER0_OVF exampleRotary 3 12 s) := rfl
    rw [e, TIMER0_OVF_rest s ⟨hq.1, hq.2.1, hq.2.2.1, hq.2.2.2.1, hq.2.2.2.2.1, hq.2.2.2.2.2.1⟩,
      ih { s with tick := (s.tick + 1) % 65536 } ⟨hq.1, hq.2.1, hq.2.2.1, hq.2.2.2.1,
        hq.2.2.2.2.1, hq.2.2.2.2.2.1, Nat.mod_lt _ (by norm_num)⟩]
    obtain ⟨tick, now, V, A, v10, a10, st1, st2, P, u⟩ := s
    simp only [State.mk.injEq, and_true, true_and]
    omega

theorem isr_run_at_rest (n : Nat) (s : State) (hq : at_rest s = true) :
    isr_run exampleRotary (quietWait n) s = advance n s := by
  unfold at_rest at hq
  exact isr_run_rest n s (of_decide_eq_true hq)

theorem at_rest_advance (n : Nat) (s : State) (hq : at_rest s = true) :
    at_rest (advance n s) = true := by
  unfold at_rest at hq ⊢
  have h := of_decide_eq_true hq
  apply decide_eq_true
  refine ⟨h.1, h.2.1, h.2.2.1, h.2.2.2.1, h.2.2.2.2.1, h.2.2.2.2.2.1, ?_⟩
  exact Nat.mod_lt _ (by norm_num)

theorem advance_advance (a b : Nat) (s : State) :
    advance a (advance b s) = advance (b + a) s := by
  unfold advance
  simp only [State.mk.injEq, and_true]
  omega

theorem at_rest_uart (s : State) (u : Uart) (hq : at_rest s = true) :
    at_rest { s with uart := u } = true := hq

/-- In a pass with `quietEnv` no switch is seen pressed. -/
theorem quiet_buttons (respV respA respC : List Nat) (m : Main) :
    at_volts_test exampleRotary (quietEnv respV respA respC) m = m :=
  buttons_idle exampleRotary (quietEnv respV respA respC) m
    (show bit_is_clear 0xFF ENC1_SW = false by decide)
    (show bit_is_clear 0xFF ENC2_SW = false by decide)

theorem quiet_volts_confirm (respV respA respC : List Nat) (m : Main)
    (hq : at_rest m.s = true) :
    volts_confirm exampleRotary (quietEnv respV respA respC) m =
      readva exampleGarbage respV
        (advance 1000
          { m.s with uart := delay_rx [] (setvolts (toU16 m.s.Vvalue) m.s.uart) }) := by
  show readva exampleGarbage respV
      (isr_run exampleRotary (quietWait 500)
        (isr_run exampleRotary (quietWait 500)
          { m.s with uart := delay_rx [] (setvolts (toU16 m.s.Vvalue) m.s.uart) })) = _
  rw [isr_run_at_rest 500 _ (at_rest_uart m.s _ hq),
    isr_run_at_rest 500 _ (at_rest_advance 500 _ (at_rest_uart m.s _ hq)), advance_advance]

theorem quiet_amps_confirm (respV respA respC : List Nat) (m : Main)
    (hq : at_rest m.s = true) :
    amps_confirm exampleRotary (quietEnv respV respA respC) m =
      readva exampleGarbage respA
        (advance 1000
          { m.s with uart := delay_rx [] (setamps (toU16 m.s.Avalue) m.s.uart) }) := by
  show readva exampleGarbage respA
      (isr_run exampleRotary (quietWait 500)
        (isr_run exampleRotary (quietWait 500)
          { m.s with uart := delay_rx [] (setamps (toU16 m.s.Avalue) m.s.uart) })) = _
  rw [isr_run_at_rest 500 _ (at_rest_uart m.s _ hq),
    isr_run_at_rest 500 _ (at_rest_advance 500 _ (at_rest_uart m.s _ hq)), advance_advance]

/-- The variables at the test of the current in a pass with `quietEnv` that
starts at rest. -/
theorem quiet_amps_test (respV respA respC : List Nat) (m : Main) (h0 : at_rest m.s = true) :
    at_amps_test exampleRotary (quietEnv respV respA respC) m = rest_amps_test respV m := by
  unfold at_amps_test sync_volts rest_amps_test
  rw [quiet_buttons, quiet_volts_confirm respV respA respC m h0]

/-- A pass with `quietEnv` that starts at rest and is at rest at the test of
the current and after the current synchronisation is `rest_pass`. -/
theorem quiet_pass (respV respA respC : List Nat) (m : Main) (h0 : at_rest m.s = true)
    (h1 : at_rest (rest_amps_test respV m).s = true)
    (h2 : at_rest (rest_synced respV respA m).s = true) :
    pass exampleRotary (quietEnv respV respA respC) m = rest_pass respV respA respC m := by
  have e2 : sync_amps exampleRotary (quietEnv respV respA respC)
      (at_amps_test exampleRotary (quietEnv respV respA respC) m) =
      rest_synced respV respA m := by
    rw [quiet_amps_test respV respA respC m h0]
    unfold sync_amps rest_synced
    rw [quiet_amps_confirm respV respA respC _ h1]
  unfold pass rest_pass
  rw [e2]
  show { rest_synced respV respA m with
      s := readcc exampleGarbage respC
        (isr_run exampleRotary (quietWait 500) (rest_synced respV respA m).s) } = _
  rw [isr_run_at_rest 500 _ h2]

theorem readva_not_ok (garbage resp : List Nat) (s : State)
    (h : (readva garbage resp s).1 ≠ 1) :
    (readva garbage resp s).2.Vvalue = s.Vvalue ∧ (readva garbage resp s).2.Avalue = s.Avalue := by
  have hf := readva_failure garbage resp s (fun hc => h ((readva_status_iff garbage resp s).2 hc))
  rw [hf]
  exact ⟨rfl, rfl⟩

/-- A failed voltage synchronisation in a pass whose test of the current finds
no difference records the one write and leaves `oldVolts` as it was, and any
later pass that finds the same setpoint at its test with 400 ticks elapsed
issues the same write again. -/
theorem failed_volts_sync_retried (h : RotaryH) (e : PassEnv) (m : Main)
    (hne : (at_volts_test h e m).oldVolts ≠ (at_volts_test h e m).s.Vvalue)
    (hel : elapsed (at_volts_test h e m).s.tick (at_volts_test h e m).s.now ≥ 400)
    (hfail : (volts_confirm h e (at_volts_test h e m)).1 ≠ 1)
    (hsync : (at_amps_test h e m).oldAmps = (at_amps_test h e m).s.Avalue) :
    (pass h e m).writes = m.writes ++ [(0x0000, toU16 (at_volts_test h e m).s.Vvalue)] ∧
      (pass h e m).oldVolts = m.oldVolts ∧
      (∀ (e2 : PassEnv) (m2 : Main), m2.oldVolts = (pass h e m).oldVolts →
        (at_volts_test h e2 m2).s.Vvalue = (at_volts_test h e m).s.Vvalue →
        elapsed (at_volts_test h e2 m2).s.tick (at_volts_test h e2 m2).s.now ≥ 400 →
        ∃ rest, (pass h e2 m2).writes =
          m2.writes ++ (0x0000, toU16 (at_volts_test h e m).s.Vvalue) :: rest) := by
  have hf := sync_volts_fires h e (at_volts_test h e m) hne hel
  have h1 : (pass h e m).writes =
      m.writes ++ [(0x0000, toU16 (at_volts_test h e m).s.Vvalue)] := by
    rw [pass_writes, if_pos (And.intro hne hel), if_neg (fun k => k.1 hsync), List.append_nil]
  have h2 : (pass h e m).oldVolts = m.oldVolts := by
    rw [(pass_fields h e m).2.1]
    exact (hf.2.2.2.2 hfail).trans (at_volts_test_fields h e m).2.1
  refine ⟨h1, h2, ?_⟩
  intro e2 m2 ho hv hel2
  have hne2 : (at_volts_test h e2 m2).oldVolts ≠ (at_volts_test h e2 m2).s.Vvalue := by
    rw [(at_volts_test_fields h e2 m2).2.1, ho, h2, hv, ← (at_volts_test_fields h e m).2.1]
    exact hne
  rw [pass_writes, if_pos (And.intro hne2 hel2), List.append_assoc, hv]
  exact ⟨_, rfl⟩

/-! ## The claims -/

/-- C1: for every buffer of bytes and every length `len` in 0..255 within it,
`crc16(buf, len)` equals the reference MODBUS CRC-16 of the first `len` bytes;
the loop of the code ends within `len + 1` loop tests. -/
theorem crc16_refines_reference (buf : List Nat) (len : Nat) (hlen : len ≤ 255)
    (hbuf : len ≤ buf.length) (hbytes : ∀ b ∈ buf.take len, b < 256) :
    crc16 buf len = refCrc16 (buf.take len) ∧
      ∀ fuel : Nat, len < fuel → crc16_outer buf len fuel 0 0xFFFF = crc16 buf len := by
  have hl : len < 256 := by omega
  refine ⟨?_, ?_⟩
  · rw [crc16_eq_foldl buf len hl hbuf, foldl_inner_eq_ref _ hbytes, refCrc16]
  · intro fuel hf
    rw [crc16_eq_foldl buf len hl hbuf,
      crc16_outer_eq buf len hl hbuf fuel 0 0xFFFF (by omega) (by omega)]
    simp

theorem crc16_refines_reference_witness :
    crc16 [0x01, 0x03, 0x00, 0x00, 0x00, 0x02, 0xC4, 0x0B] 6 =
      refCrc16 ([0x01, 0x03, 0x00, 0x00, 0x00, 0x02, 0xC4, 0x0B].take 6) ∧
    ∀ fuel : Nat, 6 < fuel →
      crc16_outer [0x01, 0x03, 0x00, 0x00, 0x00, 0x02, 0xC4, 0x0B] 6 fuel 0 0xFFFF =
        crc16 [0x01, 0x03, 0x00, 0x00, 0x00, 0x02, 0xC4, 0x0B] 6 :=
  crc16_refines_reference [0x01, 0x03, 0x00, 0x00, 0x00, 0x02, 0xC4, 0x0B] 6 (by decide)
    (by decide) (by decide)

/-- C2: the two read requests end with the CRC of their first six bytes, low byte first. -/
theorem read_requests_end_with_crc (garbage resp : List Nat) (s : State) :
    crc16 [0x01, 0x03, 0x00, 0x00, 0x00, 0x02] 6 = 0x0BC4 ∧
    (readva garbage resp s).2.uart.tx =
      s.uart.tx ++ [0x01, 0x03, 0x00, 0x00, 0x00, 0x02, 0xC4, 0x0B] ∧
    crc16 [0x01, 0x03, 0x00, 0x00, 0x00, 0x02] 6 &&& 0xFF = 0xC4 ∧
    (crc16 [0x01, 0x03, 0x00, 0x00, 0x00, 0x02] 6 >>> 8) &&& 0xFF = 0x0B ∧
    (readcc garbage resp s).uart.tx =
      s.uart.tx ++ [0x01, 0x03, 0x00, 0x08, 0x00, 0x01, 0x05, 0xC8] ∧
    crc16 [0x01, 0x03, 0x00, 0x08, 0x00, 0x01] 6 &&& 0xFF = 0x05 ∧
    (crc16 [0x01, 0x03, 0x00, 0x08, 0x00, 0x01] 6 >>> 8) &&& 0xFF = 0xC8 := by
  refine ⟨by decide, ?_, by decide, by decide, ?_, by decide, by decide⟩
  · rw [readva_uart, readva_recv, recv_tx, send8_eq]
    rfl
  · rw [readcc_uart, readcc_recv, recv_tx, send8_eq]
    rfl

/-- C3: for every 16-bit value `v`, `setvolts(v)` transmits exactly the eight
bytes `01 06 00 00 v>>8 v&0xFF c&0xFF c>>8`, `c` being `crc16` of the first six;
bytes 4 and 5 decode big-endian to `v`, and bytes 6 and 7 pass the CRC check
made on responses. -/
theorem setvolts_transmits (v : Nat) (hv : v < 65536) (u : Uart) :
    (setvolts v u).tx =
      u.tx ++ [0x01, 0x06, 0x00, 0x00, v >>> 8, v &&& 0xFF,
        crc16 [0x01, 0x06, 0x00, 0x00, v >>> 8, v &&& 0xFF] 6 &&& 0xFF,
        crc16 [0x01, 0x06, 0x00, 0x00, v >>> 8, v &&& 0xFF] 6 >>> 8] ∧
    (setvolts v u).rx = u.rx ∧
    (((volts_frame v).getD 4 0 <<< 8) ||| (volts_frame v).getD 5 0 = v) ∧
    (volts_frame v).getD 6 0 = crc16 (volts_frame v) 6 &&& 0xFF ∧
    (volts_frame v).getD 7 0 = (crc16 (volts_frame v) 6 >>> 8) &&& 0xFF := by
  have hhi : (v >>> 8) &&& 0xFF = v >>> 8 := and_0xFF_of_lt _ (shiftRight_8_lt v hv)
  have hc := crc16_lt [0x01, 0x06, 0x00, 0x00, v >>> 8, v &&& 0xFF] 6
  have hchi := and_0xFF_of_lt _ (shiftRight_8_lt _ hc)
  have hf : volts_frame v = [0x01, 0x06, 0x00, 0x00, v >>> 8, v &&& 0xFF,
      crc16 [0x01, 0x06, 0x00, 0x00, v >>> 8, v &&& 0xFF] 6 &&& 0xFF,
      crc16 [0x01, 0x06, 0x00, 0x00, v >>> 8, v &&& 0xFF] 6 >>> 8, 0, 0] := by
    simp only [volts_frame, List.replicate, List.set, hhi, write_frame_crc, hchi]
  have hlo : (v &&& 0xFF) % 256 = v &&& 0xFF := by
    rw [and_0xFF_eq_mod, Nat.mod_mod]
  have hclo : (crc16 [0x01, 0x06, 0x00, 0x00, v >>> 8, v &&& 0xFF] 6 &&& 0xFF) % 256 =
      crc16 [0x01, 0x06, 0x00, 0x00, v >>> 8, v &&& 0xFF] 6 &&& 0xFF := by
    rw [and_0xFF_eq_mod, Nat.mod_mod]
  refine ⟨?_, ?_, ?_, ?_, ?_⟩
  · rw [setvolts, send8_eq, hf]
    simp only [List.range, List.range.loop, List.map, List.getD_cons_zero, List.getD_cons_succ,
      hlo, hclo, Nat.mod_eq_of_lt (shiftRight_8_lt v hv),
      Nat.mod_eq_of_lt (shiftRight_8_lt _ hc)]
  · rw [setvolts, send8_eq]
  · rw [hf]
    simp only [List.getD_cons_zero, List.getD_cons_succ]
    exact hi_lo_recombine v
  · rw [hf, write_frame_crc]
    simp only [List.getD_cons_zero, List.getD_cons_succ]
  · rw [hf, write_frame_crc]
    simp only [List.getD_cons_zero, List.getD_cons_succ, hchi]

theorem setvolts_transmits_witness :
    (setvolts 1250 ⟨[], []⟩).tx = [0x01, 0x06, 0x00, 0x00, 0x04, 0xE2, 0x0B, 0x43] ∧
    (volts_frame 1250).getD 6 0 = crc16 (volts_frame 1250) 6 &&& 0xFF :=
  ⟨(setvolts_transmits 1250 (by decide) ⟨[], []⟩).1.trans (by decide),
    (setvolts_transmits 1250 (by decide) ⟨[], []⟩).2.2.2.1⟩

/-- C4: at `mAmps = 0xFF00` the frame built by `setamps` carries the high byte
`0x00`, whereas the big-endian split of the value has the high byte `0xFF`. -/
theorem setamps_high_byte_slip :
    (setamps 0xFF00 ⟨[], []⟩).tx = [0x01, 0x06, 0x00, 0x01, 0x00, 0x00, 0xD8, 0x0A] ∧
    (amps_frame 0xFF00).getD 4 0 = 0x00 ∧ (0xFF00 >>> 8) &&& 0xFF = 0xFF ∧
    (((amps_frame 0xFF00).getD 4 0 <<< 8) ||| (amps_frame 0xFF00).getD 5 0) ≠ 0xFF00 := by
  decide

/-- C5: `readva` returns 1 exactly when `received[7]` and `received[8]` are the
low and the high byte of `crc16` over `received[0..6]`; it then stores the
big-endian 16-bit values of bytes 3, 4 and of bytes 5, 6 into `Vvalue` and
`Avalue`, whatever they held.  Every response of seven payload bytes followed
by the low and the high byte of their CRC is accepted, and the data bytes
`04 B0 01 F4` give 1200 and 500. -/
theorem readva_accepts_iff_crc (garbage resp : List Nat) (s : State) :
    ((readva garbage resp s).1 = 1 ↔
      ((readva_received garbage resp s).getD 7 0 =
          crc16 (readva_received garbage resp s) 7 &&& 0xFF ∧
        (readva_received garbage resp s).getD 8 0 =
          (crc16 (readva_received garbage resp s) 7 >>> 8) &&& 0xFF)) ∧
    ((readva garbage resp s).1 = 1 →
      (readva garbage resp s).2.Vvalue =
          wrap16 ((((readva_received garbage resp s).getD 3 0 <<< 8) |||
            (readva_received garbage resp s).getD 4 0 : Nat) : Int) ∧
        (readva garbage resp s).2.Avalue =
          wrap16 ((((readva_received garbage resp s).getD 5 0 <<< 8) |||
            (readva_received garbage resp s).getD 6 0 : Nat) : Int)) ∧
    (∀ p : List Nat, garbage.length = 15 → p.length = 7 → (∀ b ∈ p, b < 256) →
      (readva garbage (p ++ [crc16 p 7 &&& 0xFF, crc16 p 7 >>> 8]) s).1 = 1 ∧
        (readva garbage (p ++ [crc16 p 7 &&& 0xFF, crc16 p 7 >>> 8]) s).2.Vvalue % 65536 =
          (p.getD 3 0 : Int) * 256 + (p.getD 4 0 : Int) ∧
        (readva garbage (p ++ [crc16 p 7 &&& 0xFF, crc16 p 7 >>> 8]) s).2.Avalue % 65536 =
          (p.getD 5 0 : Int) * 256 + (p.getD 6 0 : Int)) ∧
    (∀ a0 a1 a2 : Nat, garbage.length = 15 → a0 < 256 → a1 < 256 → a2 < 256 →
      (readva garbage ([a0, a1, a2, 0x04, 0xB0, 0x01, 0xF4] ++
          [crc16 [a0, a1, a2, 0x04, 0xB0, 0x01, 0xF4] 7 &&& 0xFF,
            crc16 [a0, a1, a2, 0x04, 0xB0, 0x01, 0xF4] 7 >>> 8]) s).1 = 1 ∧
        (readva garbage ([a0, a1, a2, 0x04, 0xB0, 0x01, 0xF4] ++
          [crc16 [a0, a1, a2, 0x04, 0xB0, 0x01, 0xF4] 7 &&& 0xFF,
            crc16 [a0, a1, a2, 0x04, 0xB0, 0x01, 0xF4] 7 >>> 8]) s).2.Vvalue = 1200 ∧
        (readva garbage ([a0, a1, a2, 0x04, 0xB0, 0x01, 0xF4] ++
          [crc16 [a0, a1, a2, 0x04, 0xB0, 0x01, 0xF4] 7 &&& 0xFF,
            crc16 [a0, a1, a2, 0x04, 0xB0, 0x01, 0xF4] 7 >>> 8]) s).2.Avalue = 500) := by
  refine ⟨readva_status_iff garbage resp s, readva_values garbage resp s, ?_, ?_⟩
  · intro p hg hp hb
    obtain ⟨a0, a1, a2, a3, a4, a5, a6, rfl⟩ := list_length_seven p hp
    obtain ⟨h1, h2, h3⟩ := readva_valid_response garbage s hg a0 a1 a2 a3 a4 a5 a6 hb
    have h4 : a4 < 256 := hb a4 (by simp)
    have h6 : a6 < 256 := hb a6 (by simp)
    have h3' : a3 < 256 := hb a3 (by simp)
    have h5 : a5 < 256 := hb a5 (by simp)
    refine ⟨h1, ?_, ?_⟩
    · rw [h2, wrap16_emod, shiftLeft_8_or a3 a4 h4]
      simp only [List.getD_cons_zero, List.getD_cons_succ]
      push_cast
      omega
    · rw [h3, wrap16_emod, shiftLeft_8_or a5 a6 h6]
      simp only [List.getD_cons_zero, List.getD_cons_succ]
      push_cast
      omega
  · intro a0 a1 a2 hg h0 h1 h2
    have hb : ∀ b ∈ [a0, a1, a2, 0x04, 0xB0, 0x01, 0xF4], b < 256 := by
      intro b hbm
      simp only [List.mem_cons, List.mem_singleton, List.not_mem_nil, or_false] at hbm
      rcases hbm with h | h | h | h | h | h | h <;> omega
    obtain ⟨k1, k2, k3⟩ := readva_valid_response garbage s hg a0 a1 a2 0x04 0xB0 0x01 0xF4 hb
    exact ⟨k1, k2.trans (by decide), k3.trans (by decide)⟩

theorem readva_accepts_iff_crc_witness :
    (readva exampleGarbage exampleResponse { exampleState with Vvalue := 0, Avalue := 0 }).1 = 1 ∧
    (readva exampleGarbage exampleResponse
      { exampleState with Vvalue := 0, Avalue := 0 }).2.Vvalue = 1200 ∧
    (readva exampleGarbage
      ([0x01, 0x03, 0x04, 0x04, 0xB0, 0x01, 0xF4] ++
        [crc16 [0x01, 0x03, 0x04, 0x04, 0xB0, 0x01, 0xF4] 7 &&& 0xFF,
          crc16 [0x01, 0x03, 0x04, 0x04, 0xB0, 0x01, 0xF4] 7 >>> 8])
      { exampleState with Vvalue := 0, Avalue := 0 }).2.Avalue = 500 :=
  ⟨(readva_accepts_iff_crc exampleGarbage exampleResponse
      { exampleState with Vvalue := 0, Avalue := 0 }).1.2 (by decide),
    ((readva_accepts_iff_crc exampleGarbage exampleResponse
      { exampleState with Vvalue := 0, Avalue := 0 }).2.1 (by decide)).1.trans (by decide),
    ((readva_accepts_iff_crc exampleGarbage exampleResponse
      { exampleState with Vvalue := 0, Avalue := 0 }).2.2.2 0x01 0x03 0x04 (by decide) (by decide)
        (by decide) (by decide)).2.2⟩

/-- C6: when `received[7]` or `received[8]` differs from the low or the high
byte of `crc16` over `received[0..6]`, `readva` returns 0 and `Vvalue` and
`Avalue` are what they were before the call. -/
theorem readva_crc_mismatch (garbage resp : List Nat) (s : State)
    (hfail : (readva_received garbage resp s).getD 7 0 ≠
          crc16 (readva_received garbage resp s) 7 &&& 0xFF ∨
        (readva_received garbage resp s).getD 8 0 ≠
          (crc16 (readva_received garbage resp s) 7 >>> 8) &&& 0xFF) :
    (readva garbage resp s).1 = 0 ∧ (readva garbage resp s).2.Vvalue = s.Vvalue ∧
      (readva garbage resp s).2.Avalue = s.Avalue := by
  have h := readva_failure garbage resp s (by
    intro hc
    rcases hfail with h | h
    · exact h hc.1
    · exact h hc.2)
  rw [h]
  exact ⟨rfl, rfl, rfl⟩

theorem readva_crc_mismatch_witness :
    (readva exampleGarbage [0x01, 0x03, 0x04, 0x13, 0x88, 0x00, 0x64, 0xFA, 0xF3] exampleState).1
        = 0 ∧
      (readva exampleGarbage [0x01, 0x03, 0x04, 0x13, 0x88, 0x00, 0x64, 0xFA, 0xF3]
        exampleState).2.Vvalue = 1200 ∧
      (readva exampleGarbage [0x01, 0x03, 0x04, 0x13, 0x88, 0x00, 0x64, 0xFA, 0xF3]
        exampleState).2.Avalue = 500 :=
  readva_crc_mismatch exampleGarbage [0x01, 0x03, 0x04, 0x13, 0x88, 0x00, 0x64, 0xFA, 0xF3]
    exampleState (by decide)

/-- C7: when `received[5]` and `received[6]` are the low and the high byte of
`crc16` over `received[0..4]`, `readcc` sets the indicator bit if
`received[4]` is `0x01` and clears it for every other value, `0x00` among
them; when the CRC check fails the output register is unchanged. -/
theorem readcc_indicator (garbage resp : List Nat) (s : State) :
    (((readcc_received garbage resp s).getD 5 0 =
          crc16 (readcc_received garbage resp s) 5 &&& 0xFF ∧
        (readcc_received garbage resp s).getD 6 0 =
          (crc16 (readcc_received garbage resp s) 5 >>> 8) &&& 0xFF) →
      ((readcc_received garbage resp s).getD 4 0 = 0x01 →
        (readcc garbage resp s).PORTD.testBit CCLED = true) ∧
      ((readcc_received garbage resp s).getD 4 0 = 0x00 →
        (readcc garbage resp s).PORTD.testBit CCLED = false) ∧
      ((readcc_received garbage resp s).getD 4 0 ≠ 0x01 →
        (readcc garbage resp s).PORTD.testBit CCLED = false)) ∧
    (¬ ((readcc_received garbage resp s).getD 5 0 =
          crc16 (readcc_received garbage resp s) 5 &&& 0xFF ∧
        (readcc_received garbage resp s).getD 6 0 =
          (crc16 (readcc_received garbage resp s) 5 >>> 8) &&& 0xFF) →
      (readcc garbage resp s).PORTD = s.PORTD ∧
        (readcc garbage resp s).PORTD.testBit CCLED = s.PORTD.testBit CCLED) := by
  have hclear : ∀ p : Nat, (p &&& (0xFF ^^^ (1 <<< CCLED))).testBit CCLED = false := by
    intro p
    rw [Nat.testBit_and, show (0xFF ^^^ (1 <<< CCLED)).testBit CCLED = false from by decide,
      Bool.and_false]
  have hset : ∀ p : Nat, (p ||| (1 <<< CCLED)).testBit CCLED = true := by
    intro p
    rw [Nat.testBit_or, show (1 <<< CCLED).testBit CCLED = true from by decide, Bool.or_true]
  refine ⟨?_, ?_⟩
  · intro hc
    unfold readcc_received at hc
    have hnot : (readcc_received garbage resp s).getD 4 0 ≠ 0x01 →
        (readcc garbage resp s).PORTD.testBit CCLED = false := by
      intro h4
      unfold readcc_received at h4
      unfold readcc
      simp only
      rw [if_pos hc, if_neg h4]
      exact hclear _
    refine ⟨?_, ?_, hnot⟩
    · intro h4
      unfold readcc_received at h4
      unfold readcc
      simp only
      rw [if_pos hc, if_pos h4]
      exact hset _
    · intro h4
      exact hnot (by rw [h4]; decide)
  · intro hc
    unfold readcc_received at hc
    have hp : (readcc garbage resp s).PORTD = s.PORTD := by
      unfold readcc
      simp only
      rw [if_neg hc]
    exact ⟨hp, by rw [hp]⟩

theorem readcc_indicator_witness :
    (readcc exampleGarbage [0x01, 0x03, 0x02, 0x00, 0x01, 0x79, 0x84]
        exampleState).PORTD.testBit CCLED = true ∧
    (readcc exampleGarbage [0x01, 0x03, 0x02, 0x00, 0x00, 0xB8, 0x44]
        { exampleState with PORTD := 0x08 }).PORTD.testBit CCLED = false ∧
    (readcc exampleGarbage [0x01, 0x03, 0x02, 0x00, 0x00, 0xB8, 0x45]
        { exampleState with PORTD := 0x08 }).PORTD = 0x08 :=
  ⟨((readcc_indicator exampleGarbage [0x01, 0x03, 0x02, 0x00, 0x01, 0x79, 0x84]
      exampleState).1 (by decide)).1 (by decide),
    ((readcc_indicator exampleGarbage [0x01, 0x03, 0x02, 0x00, 0x00, 0xB8, 0x44]
      { exampleState with PORTD := 0x08 }).1 (by decide)).2.1 (by decide),
    ((readcc_indicator exampleGarbage [0x01, 0x03, 0x02, 0x00, 0x00, 0xB8, 0x45]
      { exampleState with PORTD := 0x08 }).2 (by decide)).1⟩

/-- C8, as stated, fails on the golden vector: `crc16` over the read request
followed by its own CRC, low byte first, is zero. -/
theorem crc16_residue_counterexample :
    ¬ (crc16 ([0x01, 0x03, 0x00, 0x00, 0x00, 0x02] ++
        [crc16 [0x01, 0x03, 0x00, 0x00, 0x00, 0x02] 6 &&& 0xFF,
          crc16 [0x01, 0x03, 0x00, 0x00, 0x00, 0x02] 6 >>> 8]) 8 ≠ 0) := by
  decide

/-- C8, amended: for every byte sequence `p` of length at most 253, `crc16`
over `p` followed by the low byte and then the high byte of `crc16(p)` is
zero. -/
theorem crc16_residue_zero (p : List Nat) (hp : p.length ≤ 253) :
    crc16 (p ++ [crc16 p p.length &&& 0xFF, crc16 p p.length >>> 8]) (p.length + 2) = 0 := by
  have hc := crc16_lt p p.length
  rw [crc16_eq_foldl _ (p.length + 2) (by omega) (by simp)]
  have ht : (p ++ [crc16 p p.length &&& 0xFF, crc16 p p.length >>> 8]).take (p.length + 2) =
      p ++ [crc16 p p.length &&& 0xFF, crc16 p p.length >>> 8] := by
    apply List.take_of_length_le
    simp
  rw [ht, List.foldl_append, List.foldl_cons, List.foldl_cons, List.foldl_nil]
  have hfold : List.foldl (fun c b => crc16_inner 8 b c) 0xFFFF p = crc16 p p.length := by
    rw [crc16_eq_foldl p p.length (by omega) (le_refl _), List.take_length]
  rw [hfold]
  exact crc16_inner_residue _ hc

theorem crc16_residue_zero_witness :
    crc16 ([0x01, 0x03, 0x04, 0x04, 0xB0, 0x01, 0xF4] ++
      [crc16 [0x01, 0x03, 0x04, 0x04, 0xB0, 0x01, 0xF4] 7 &&& 0xFF,
        crc16 [0x01, 0x03, 0x04, 0x04, 0xB0, 0x01, 0xF4] 7 >>> 8]) 9 = 0 :=
  crc16_residue_zero [0x01, 0x03, 0x04, 0x04, 0xB0, 0x01, 0xF4] (by decide)

/-- C9: whatever `Vvalue` held, whatever the multiplier and whatever the
decoder reports, after a call of `checkV` the setpoint satisfies
`0 <= Vvalue <= 5000`, hence also after each call of any finite sequence of
calls; the same holds for `checkA` and `Avalue`. -/
theorem setpoints_clamped (h : RotaryH) (pins : List Nat) (pin : Nat) (s : State) :
    (0 ≤ (checkV h pin s).Vvalue ∧ (checkV h pin s).Vvalue ≤ 5000) ∧
    (0 ≤ (checkA h pin s).Avalue ∧ (checkA h pin s).Avalue ≤ 5000) ∧
    (0 ≤ (runV h (pins ++ [pin]) s).Vvalue ∧ (runV h (pins ++ [pin]) s).Vvalue ≤ 5000) ∧
    (0 ≤ (runA h (pins ++ [pin]) s).Avalue ∧ (runA h (pins ++ [pin]) s).Avalue ≤ 5000) := by
  refine ⟨checkV_range h pin s, checkA_range h pin s, ?_, ?_⟩
  · rw [runV_snoc]
    exact checkV_range h pin _
  · rw [runA_snoc]
    exact checkA_range h pin _

/-- C10: for a setpoint in `[0, 5000]` and a multiplier `m` of 1 or 10, a call
of `checkV` whose decoder result is `0x10` sets `Vvalue` to
`min (Vvalue + m) 5000` and `now` to `tick`, one whose result is `0x20` sets
`Vvalue` to `max (Vvalue - m) 0` and `now` to `tick`, one whose result is 0
changes neither; the sum and the difference fit in 16 bits; and calls with `k`
clockwise detents among them give `min (V + k * m) 5000`.  The same holds for
`checkA`. -/
theorem detent_updates (h : RotaryH) (pin : Nat) (s : State)
    (hV : 0 ≤ s.Vvalue ∧ s.Vvalue ≤ 5000) (hmV : s.volt10x = 1 ∨ s.volt10x = 10)
    (hA : 0 ≤ s.Avalue ∧ s.Avalue ≤ 5000) (hmA : s.amps10x = 1 ∨ s.amps10x = 10) :
    (((rotary_process_1 h pin s).1 = 0x10 →
        (checkV h pin s).Vvalue = min (s.Vvalue + (s.volt10x : Int)) 5000 ∧
          (checkV h pin s).now = s.tick) ∧
      ((rotary_process_1 h pin s).1 = 0x20 →
        (checkV h pin s).Vvalue = max (s.Vvalue - (s.volt10x : Int)) 0 ∧
          (checkV h pin s).now = s.tick) ∧
      ((rotary_process_1 h pin s).1 = 0 →
        (checkV h pin s).Vvalue = s.Vvalue ∧ (checkV h pin s).now = s.now) ∧
      wrap16 (s.Vvalue + (s.volt10x : Int)) = s.Vvalue + (s.volt10x : Int) ∧
      wrap16 (s.Vvalue - (s.volt10x : Int)) = s.Vvalue - (s.volt10x : Int) ∧
      (∀ (pins : List Nat) (k : Nat), (∀ r ∈ resultsV h pins s, r = 0 ∨ r = 0x10) →
        (resultsV h pins s).count 0x10 = k →
        (runV h pins s).Vvalue = min (s.Vvalue + (k : Int) * (s.volt10x : Int)) 5000)) ∧
    (((rotary_process_2 h pin s).1 = 0x10 →
        (checkA h pin s).Avalue = min (s.Avalue + (s.amps10x : Int)) 5000 ∧
          (checkA h pin s).now = s.tick) ∧
      ((rotary_process_2 h pin s).1 = 0x20 →
        (checkA h pin s).Avalue = max (s.Avalue - (s.amps10x : Int)) 0 ∧
          (checkA h pin s).now = s.tick) ∧
      ((rotary_process_2 h pin s).1 = 0 →
        (checkA h pin s).Avalue = s.Avalue ∧ (checkA h pin s).now = s.now) ∧
      wrap16 (s.Avalue + (s.amps10x : Int)) = s.Avalue + (s.amps10x : Int) ∧
      wrap16 (s.Avalue - (s.amps10x : Int)) = s.Avalue - (s.amps10x : Int) ∧
      (∀ (pins : List Nat) (k : Nat), (∀ r ∈ resultsA h pins s, r = 0 ∨ r = 0x10) →
        (resultsA h pins s).count 0x10 = k →
        (runA h pins s).Avalue = min (s.Avalue + (k : Int) * (s.amps10x : Int)) 5000)) := by
  have hv := checkV_step h pin s hV hmV
  have ha := checkA_step h pin s hA hmA
  have hmV' : (s.volt10x : Int) = 1 ∨ (s.volt10x : Int) = 10 := by
    rcases hmV with k | k <;> rw [k] <;> simp
  have hmA' : (s.amps10x : Int) = 1 ∨ (s.amps10x : Int) = 10 := by
    rcases hmA with k | k <;> rw [k] <;> simp
  refine ⟨⟨hv.1, hv.2.1, hv.2.2, ?_, ?_, ?_⟩, ⟨ha.1, ha.2.1, ha.2.2, ?_, ?_, ?_⟩⟩
  · exact wrap16_of_range _ (by omega) (by omega)
  · exact wrap16_of_range _ (by omega) (by omega)
  · intro pins k hr hk
    rw [runV_clockwise h pins s hV hmV hr, hk]
  · exact wrap16_of_range _ (by omega) (by omega)
  · exact wrap16_of_range _ (by omega) (by omega)
  · intro pins k hr hk
    rw [runA_clockwise h pins s hA hmA hr, hk]

theorem detent_updates_witness :
    (runV exampleRotary (cwDetent1 ++ cwDetent1 ++ cwDetent1 ++ cwDetent1 ++ cwDetent1)
        exampleState).Vvalue = 1250 ∧
    (checkV exampleRotary 3 { exampleState with state_1 := 1 }).Vvalue = 1210 ∧
    (checkA exampleRotary 12 { exampleState with state_2 := 5, Avalue := 0 }).Avalue = 0 :=
  ⟨((detent_updates exampleRotary 0 exampleState (by decide) (by decide) (by decide)
      (by decide)).1.2.2.2.2.2
        (cwDetent1 ++ cwDetent1 ++ cwDetent1 ++ cwDetent1 ++ cwDetent1) 5 (by decide)
        (by decide)).trans (by decide),
    (((detent_updates exampleRotary 3 { exampleState with state_1 := 1 } (by decide) (by decide)
      (by decide) (by decide)).1.1 (by decide)).1).trans (by decide),
    (((detent_updates exampleRotary 12 { exampleState with state_2 := 5, Avalue := 0 }
      (by decide) (by decide) (by decide) (by decide)).2.2.1 (by decide)).1).trans (by decide)⟩

/-- C11, as stated, fails: with `now = 0` and `tick = 64600` when the pass
starts, both setpoints differ from their shadows.  The voltage is written and
its confirming read fails, so nothing is stored; the two waits of 500 ms have
brought `tick` to 64 across the wrap when the test of the current is reached,
and the current, whose setpoint still differs from its shadow, is not
written. -/
theorem rate_limit_counterexample :
    ¬ ((400 ≤ 64600 ∧ 64600 ≤ 65535) →
        exampleMainLate.s.tick = (exampleMainLate.s.now + 64600) % 65536 →
        exampleMainLate.oldAmps ≠ exampleMainLate.s.Avalue →
        ∃ w ∈ (pass exampleRotary (quietEnv badResponse badResponse [])
          exampleMainLate).writes, w.1 = 0x0001) := by
  intro hc
  have hw := hc (by decide) (by decide) (by decide)
  rw [quiet_pass badResponse badResponse [] exampleMainLate (by decide) (by decide)
    (by decide)] at hw
  revert hw
  decide

/-- C11, amended: in every pass `setvolts` (respectively `setamps`) is called
exactly when, at its test, the setpoint differs from its shadow and `tick - now`,
read there as an unsigned 16-bit difference, is at least 400.  With `now = T` and
`tick = (T + d) mod 65536` when the test of a channel is reached, no write is
issued for that channel when `d < 400`, also across the wrap of `tick`, and
when that holds at both tests the pass issues no write; for `400 <= d <= 65535`
the channel is written if its setpoint then differs from its shadow. -/
theorem writes_rate_limited (h : RotaryH) (e : PassEnv) (m : Main) :
    ((pass h e m).writes =
      (m.writes ++
        (if (at_volts_test h e m).oldVolts ≠ (at_volts_test h e m).s.Vvalue ∧
            elapsed (at_volts_test h e m).s.tick (at_volts_test h e m).s.now ≥ 400 then
          [(0x0000, toU16 (at_volts_test h e m).s.Vvalue)] else [])) ++
        (if (at_amps_test h e m).oldAmps ≠ (at_amps_test h e m).s.Avalue ∧
            elapsed (at_amps_test h e m).s.tick (at_amps_test h e m).s.now ≥ 400 then
          [(0x0001, toU16 (at_amps_test h e m).s.Avalue)] else [])) ∧
    (∀ T d : Nat, T < 65536 → d < 400 → (at_volts_test h e m).s.now = T →
      (at_volts_test h e m).s.tick = (T + d) % 65536 →
      (at_amps_test h e m).writes = m.writes) ∧
    (∀ T d : Nat, T < 65536 → d < 400 → (at_amps_test h e m).s.now = T →
      (at_amps_test h e m).s.tick = (T + d) % 65536 →
      (pass h e m).writes = (at_amps_test h e m).writes) ∧
    (∀ T d T2 d2 : Nat, T < 65536 → d < 400 → T2 < 65536 → d2 < 400 →
      (at_volts_test h e m).s.now = T → (at_volts_test h e m).s.tick = (T + d) % 65536 →
      (at_amps_test h e m).s.now = T2 → (at_amps_test h e m).s.tick = (T2 + d2) % 65536 →
      (pass h e m).writes = m.writes) ∧
    (∀ T d : Nat, T < 65536 → 400 ≤ d → d ≤ 65535 → (at_volts_test h e m).s.now = T →
      (at_volts_test h e m).s.tick = (T + d) % 65536 →
      (at_volts_test h e m).oldVolts ≠ (at_volts_test h e m).s.Vvalue →
      (at_amps_test h e m).writes =
        m.writes ++ [(0x0000, toU16 (at_volts_test h e m).s.Vvalue)]) ∧
    (∀ T d : Nat, T < 65536 → 400 ≤ d → d ≤ 65535 → (at_amps_test h e m).s.now = T →
      (at_amps_test h e m).s.tick = (T + d) % 65536 →
      (at_amps_test h e m).oldAmps ≠ (at_amps_test h e m).s.Avalue →
      (pass h e m).writes =
        (at_amps_test h e m).writes ++ [(0x0001, toU16 (at_amps_test h e m).s.Avalue)]) := by
  have hvw : (at_amps_test h e m).writes =
      m.writes ++
        (if (at_volts_test h e m).oldVolts ≠ (at_volts_test h e m).s.Vvalue ∧
            elapsed (at_volts_test h e m).s.tick (at_volts_test h e m).s.now ≥ 400 then
          [(0x0000, toU16 (at_volts_test h e m).s.Vvalue)] else []) := by
    unfold at_amps_test
    rw [sync_volts_writes, (at_volts_test_fields h e m).1]
  have haw : (pass h e m).writes =
      (at_amps_test h e m).writes ++
        (if (at_amps_test h e m).oldAmps ≠ (at_amps_test h e m).s.Avalue ∧
            elapsed (at_amps_test h e m).s.tick (at_amps_test h e m).s.now ≥ 400 then
          [(0x0001, toU16 (at_amps_test h e m).s.Avalue)] else []) := by
    rw [(pass_fields h e m).1, sync_amps_writes]
  have hlowV : ∀ T d : Nat, T < 65536 → d < 400 → (at_volts_test h e m).s.now = T →
      (at_volts_test h e m).s.tick = (T + d) % 65536 →
      (at_amps_test h e m).writes = m.writes := by
    intro T d hT hd hnow htick
    have hel : ¬ elapsed (at_volts_test h e m).s.tick (at_volts_test h e m).s.now ≥ 400 := by
      rw [hnow, htick, elapsed_add T d hT (by omega)]
      omega
    rw [hvw, if_neg (fun k => hel k.2), List.append_nil]
  have hlowA : ∀ T d : Nat, T < 65536 → d < 400 → (at_amps_test h e m).s.now = T →
      (at_amps_test h e m).s.tick = (T + d) % 65536 →
      (pass h e m).writes = (at_amps_test h e m).writes := by
    intro T d hT hd hnow htick
    have hel : ¬ elapsed (at_amps_test h e m).s.tick (at_amps_test h e m).s.now ≥ 400 := by
      rw [hnow, htick, elapsed_add T d hT (by omega)]
      omega
    rw [haw, if_neg (fun k => hel k.2), List.append_nil]
  refine ⟨pass_writes h e m, hlowV, hlowA, ?_, ?_, ?_⟩
  · intro T d T2 d2 hT hd hT2 hd2 hnow htick hnow2 htick2
    rw [hlowA T2 d2 hT2 hd2 hnow2 htick2, hlowV T d hT hd hnow htick]
  · intro T d hT hd1 hd2 hnow htick hne
    have hel : elapsed (at_volts_test h e m).s.tick (at_volts_test h e m).s.now ≥ 400 := by
      rw [hnow, htick, elapsed_add T d hT (by omega)]
      exact hd1
    rw [hvw, if_pos (And.intro hne hel)]
  · intro T d hT hd1 hd2 hnow htick hne
    have hel : elapsed (at_amps_test h e m).s.tick (at_amps_test h e m).s.now ≥ 400 := by
      rw [hnow, htick, elapsed_add T d hT (by omega)]
      exact hd1
    rw [haw, if_pos (And.intro hne hel)]

theorem writes_rate_limited_witness :
    (pass exampleRotary (quietEnv exampleResponse exampleResponse [])
        { exampleMain with s := { exampleMain.s with now := 65400, tick := 164 } }).writes = [] ∧
    (at_amps_test exampleRotary (quietEnv exampleResponse exampleResponse [])
        { exampleMain with s := { exampleMain.s with now := 65000, tick := 64 } }).writes =
      [(0x0000, 1250)] ∧
    (pass exampleRotary (quietEnv badResponse response600 []) exampleMainBoth).writes =
      [(0x0000, 1250), (0x0001, 600)] :=
  ⟨(writes_rate_limited exampleRotary (quietEnv exampleResponse exampleResponse [])
      { exampleMain with s := { exampleMain.s with now := 65400, tick := 164 } }).2.2.2.1
        65400 300 65400 300 (by decide) (by decide) (by decide) (by decide)
        (by rw [quiet_buttons]) (by rw [quiet_buttons])
        (by rw [quiet_amps_test _ _ _ _ (by decide)]; decide)
        (by rw [quiet_amps_test _ _ _ _ (by decide)]; decide),
    ((writes_rate_limited exampleRotary (quietEnv exampleResponse exampleResponse [])
      { exampleMain with s := { exampleMain.s with now := 65000, tick := 64 } }).2.2.2.2.1
        65000 600 (by decide) (by decide) (by decide) (by rw [quiet_buttons])
        (by rw [quiet_buttons]) (by rw [quiet_buttons]; decide)).trans
        (by rw [quiet_buttons]; decide),
    ((writes_rate_limited exampleRotary (quietEnv badResponse response600 [])
      exampleMainBoth).2.2.2.2.2
        0 2000 (by decide) (by decide) (by decide)
        (by rw [quiet_amps_test _ _ _ _ (by decide)]; decide)
        (by rw [quiet_amps_test _ _ _ _ (by decide)]; decide)
        (by rw [quiet_amps_test _ _ _ _ (by decide)]; decide)).trans
        (by rw [quiet_amps_test _ _ _ _ (by decide)]; decide)⟩

/-- C12: a pass in which `setvolts(1250)` is issued and the confirming `readva`
fails, while the current is pending too and its confirming `readva` succeeds
with the voltage 1200 of the device: `Vvalue` is 1200 after the pass, not
1250, and the next pass, with the window still open, issues no write. -/
theorem failed_sync_overwritten :
    (volts_confirm exampleRotary (quietEnv badResponse response600 [])
      (at_volts_test exampleRotary (quietEnv badResponse response600 []) exampleMainBoth)).1
        = 0 ∧
    (pass exampleRotary (quietEnv badResponse response600 []) exampleMainBoth).writes =
      [(0x0000, 1250), (0x0001, 600)] ∧
    exampleMainBoth.s.Vvalue = 1250 ∧
    (pass exampleRotary (quietEnv badResponse response600 []) exampleMainBoth).s.Vvalue
      = 1200 ∧
    (pass exampleRotary (quietEnv badResponse response600 []) exampleMainBoth).oldVolts
      = 1200 ∧
    elapsed (pass exampleRotary (quietEnv badResponse response600 []) exampleMainBoth).s.tick
      (pass exampleRotary (quietEnv badResponse response600 []) exampleMainBoth).s.now
      ≥ 400 ∧
    elapsed
      (at_volts_test exampleRotary (quietEnv response600 response600 [])
        (pass exampleRotary (quietEnv badResponse response600 []) exampleMainBoth)).s.tick
      (at_volts_test exampleRotary (quietEnv response600 response600 [])
        (pass exampleRotary (quietEnv badResponse response600 []) exampleMainBoth)).s.now
      ≥ 400 ∧
    (pass exampleRotary (quietEnv response600 response600 [])
      (pass exampleRotary (quietEnv badResponse response600 []) exampleMainBoth)).writes =
      [(0x0000, 1250), (0x0001, 600)] := by
  rw [quiet_buttons, quiet_buttons,
    quiet_volts_confirm badResponse response600 [] exampleMainBoth (by decide),
    quiet_pass badResponse response600 [] exampleMainBoth (by decide) (by decide) (by decide),
    quiet_pass response600 response600 [] _ (by decide) (by decide) (by decide)]
  decide

/-- C13: a pass that starts with both setpoints different from their shadows
(1250 against 1200, 600 against 500) and 1000 ticks elapsed, in which every
read succeeds and no encoder moves: the confirming `readva` of the voltage
stores the current 500 of the response into `Avalue`, so only the voltage
write is issued, although 400 ticks have elapsed at the test of the current
as well, and the next pass issues no write either. -/
theorem amps_change_lost :
    exampleMainBoth.oldVolts ≠ exampleMainBoth.s.Vvalue ∧
    exampleMainBoth.oldAmps ≠ exampleMainBoth.s.Avalue ∧
    exampleMainBoth.s.Avalue = 600 ∧
    elapsed exampleMainBoth.s.tick exampleMainBoth.s.now ≥ 400 ∧
    (volts_confirm exampleRotary (quietEnv response1250 response1250 [])
      (at_volts_test exampleRotary (quietEnv response1250 response1250 [])
        exampleMainBoth)).1 = 1 ∧
    elapsed
      (at_amps_test exampleRotary (quietEnv response1250 response1250 [])
        exampleMainBoth).s.tick
      (at_amps_test exampleRotary (quietEnv response1250 response1250 [])
        exampleMainBoth).s.now ≥ 400 ∧
    (pass exampleRotary (quietEnv response1250 response1250 []) exampleMainBoth).writes =
      [(0x0000, 1250)] ∧
    (pass exampleRotary (quietEnv response1250 response1250 []) exampleMainBoth).s.Avalue
      = 500 ∧
    (pass exampleRotary (quietEnv response1250 response1250 []) exampleMainBoth).oldAmps
      = 500 ∧
    (pass exampleRotary (quietEnv response1250 response1250 [])
      (pass exampleRotary (quietEnv response1250 response1250 []) exampleMainBoth)).writes =
      [(0x0000, 1250)] := by
  rw [quiet_buttons,
    quiet_volts_confirm response1250 response1250 [] exampleMainBoth (by decide),
    quiet_amps_test response1250 response1250 [] exampleMainBoth (by decide),
    quiet_pass response1250 response1250 [] exampleMainBoth (by decide) (by decide)
      (by decide),
    quiet_pass response1250 response1250 [] _ (by decide) (by decide) (by decide)]
  decide

/-- C14, as stated, fails: the write of 1250 is issued and the confirming
`readva` succeeds on a response that carries 1200; the shadow `oldVolts` is
then 1200, not the value pushed. -/
theorem shadow_counterexample :
    ¬ ((pass exampleRotary (quietEnv exampleResponse exampleResponse [])
          exampleMain).writes = [(0x0000, 1250)] →
        (volts_confirm exampleRotary (quietEnv exampleResponse exampleResponse [])
          (at_volts_test exampleRotary (quietEnv exampleResponse exampleResponse [])
            exampleMain)).1 = 1 →
        (pass exampleRotary (quietEnv exampleResponse exampleResponse [])
          exampleMain).oldVolts = 1250) := by
  rw [quiet_buttons,
    quiet_volts_confirm exampleResponse exampleResponse [] exampleMain (by decide),
    quiet_pass exampleResponse exampleResponse [] exampleMain (by decide) (by decide)
      (by decide)]
  decide

/-- C14, amended: for every pass in which a voltage write is issued and the
confirming `readva` succeeds, the shadow `oldVolts` after the pass is the
voltage that the confirming response carries, which that `readva` stored into
`Vvalue`; it is the value pushed when the response carries it.  Symmetrically
`oldAmps` is the current carried by the confirming response of a successful
current synchronisation. -/
theorem shadow_follows_response (h : RotaryH) (e : PassEnv) (m : Main) :
    ((at_volts_test h e m).oldVolts ≠ (at_volts_test h e m).s.Vvalue →
      elapsed (at_volts_test h e m).s.tick (at_volts_test h e m).s.now ≥ 400 →
      ((volts_confirm h e (at_volts_test h e m)).1 = 1 →
        (pass h e m).oldVolts = (volts_confirm h e (at_volts_test h e m)).2.Vvalue ∧
        ((volts_confirm h e (at_volts_test h e m)).2.Vvalue = (at_volts_test h e m).s.Vvalue →
          (pass h e m).oldVolts = (at_volts_test h e m).s.Vvalue)) ∧
      (∀ a0 a1 a2 a3 a4 a5 a6 : Nat, e.garbageV.length = 15 →
        (∀ b ∈ [a0, a1, a2, a3, a4, a5, a6], b < 256) →
        e.respV = [a0, a1, a2, a3, a4, a5, a6] ++
          [crc16 [a0, a1, a2, a3, a4, a5, a6] 7 &&& 0xFF,
            crc16 [a0, a1, a2, a3, a4, a5, a6] 7 >>> 8] →
        (pass h e m).oldVolts = wrap16 (((a3 <<< 8) ||| a4 : Nat) : Int))) ∧
    ((at_amps_test h e m).oldAmps ≠ (at_amps_test h e m).s.Avalue →
      elapsed (at_amps_test h e m).s.tick (at_amps_test h e m).s.now ≥ 400 →
      ((amps_confirm h e (at_amps_test h e m)).1 = 1 →
        (pass h e m).oldAmps = (amps_confirm h e (at_amps_test h e m)).2.Avalue) ∧
      (∀ a0 a1 a2 a3 a4 a5 a6 : Nat, e.garbageA.length = 15 →
        (∀ b ∈ [a0, a1, a2, a3, a4, a5, a6], b < 256) →
        e.respA = [a0, a1, a2, a3, a4, a5, a6] ++
          [crc16 [a0, a1, a2, a3, a4, a5, a6] 7 &&& 0xFF,
            crc16 [a0, a1, a2, a3, a4, a5, a6] 7 >>> 8] →
        (pass h e m).oldAmps = wrap16 (((a5 <<< 8) ||| a6 : Nat) : Int))) := by
  have hp := pass_fields h e m
  refine ⟨?_, ?_⟩
  · intro hne hel
    have hf := sync_volts_fires h e (at_volts_test h e m) hne hel
    have hok : (volts_confirm h e (at_volts_test h e m)).1 = 1 →
        (pass h e m).oldVolts = (volts_confirm h e (at_volts_test h e m)).2.Vvalue := by
      intro k
      rw [hp.2.1]
      exact hf.2.2.2.1 k
    refine ⟨fun k => ⟨hok k, fun k2 => by rw [hok k, k2]⟩, ?_⟩
    intro a0 a1 a2 a3 a4 a5 a6 hg hbytes hresp
    have hv : ∀ st : State, (readva e.garbageV e.respV st).1 = 1 ∧
        (readva e.garbageV e.respV st).2.Vvalue = wrap16 (((a3 <<< 8) ||| a4 : Nat) : Int) := by
      intro st
      rw [hresp]
      have k := readva_valid_response e.garbageV st hg a0 a1 a2 a3 a4 a5 a6 hbytes
      exact ⟨k.1, k.2.1⟩
    have h1 := hv (isr_run h e.readV (isr_run h e.waitV
      { (at_volts_test h e m).s with
        uart := delay_rx e.ackV (setvolts (toU16 (at_volts_test h e m).s.Vvalue)
          (at_volts_test h e m).s.uart) }))
    rw [hok h1.1]
    exact h1.2
  · intro hne hel
    have hf := sync_amps_fires h e (at_amps_test h e m) hne hel
    have hok : (amps_confirm h e (at_amps_test h e m)).1 = 1 →
        (pass h e m).oldAmps = (amps_confirm h e (at_amps_test h e m)).2.Avalue := by
      intro k
      rw [hp.2.2]
      exact hf.2.2.2.1 k
    refine ⟨hok, ?_⟩
    intro a0 a1 a2 a3 a4 a5 a6 hg hbytes hresp
    have hv : ∀ st : State, (readva e.garbageA e.respA st).1 = 1 ∧
        (readva e.garbageA e.respA st).2.Avalue = wrap16 (((a5 <<< 8) ||| a6 : Nat) : Int) := by
      intro st
      rw [hresp]
      have k := readva_valid_response e.garbageA st hg a0 a1 a2 a3 a4 a5 a6 hbytes
      exact ⟨k.1, k.2.2⟩
    have h1 := hv (isr_run h e.readA (isr_run h e.waitA
      { (at_amps_test h e m).s with
        uart := delay_rx e.ackA (setamps (toU16 (at_amps_test h e m).s.Avalue)
          (at_amps_test h e m).s.uart) }))
    rw [hok h1.1]
    exact h1.2

theorem shadow_follows_response_witness :
    (pass exampleRotary (quietEnv response1250 response1250 []) exampleMain).oldVolts = 1250 ∧
    (pass exampleRotary (quietEnv exampleResponse exampleResponse []) exampleMain).oldVolts
      = 1200 :=
  ⟨(((shadow_follows_response exampleRotary (quietEnv response1250 response1250 [])
      exampleMain).1
      (by rw [quiet_buttons]; decide) (by rw [quiet_buttons]; decide)).1
      (by rw [quiet_buttons, quiet_volts_confirm _ _ _ _ (by decide)]; decide)).2
      (by rw [quiet_buttons, quiet_volts_confirm _ _ _ _ (by decide)]; decide),
    (((shadow_follows_response exampleRotary (quietEnv exampleResponse exampleResponse [])
      exampleMain).1
      (by rw [quiet_buttons]; decide) (by rw [quiet_buttons]; decide)).2
      0x01 0x03 0x04 0x04 0xB0 0x01 0xF4 (by decide) (by decide) (by decide)).trans
      (by decide)⟩

/-- C15, as stated, fails: a response that passes the CRC check and carries
the voltage `0x1389` leaves `Vvalue` at 5001 after a successful `readva`. -/
theorem readva_range_counterexample :
    ¬ ((readva exampleGarbage [0x01, 0x03, 0x04, 0x13, 0x89, 0x00, 0x64, 0x2E, 0xB6]
          exampleState).1 = 1 →
        0 ≤ (readva exampleGarbage [0x01, 0x03, 0x04, 0x13, 0x89, 0x00, 0x64, 0x2E, 0xB6]
          exampleState).2.Vvalue ∧
        (readva exampleGarbage [0x01, 0x03, 0x04, 0x13, 0x89, 0x00, 0x64, 0x2E, 0xB6]
          exampleState).2.Vvalue ≤ 5000) := by
  decide

/-- C15, amended: after `checkV`, `0 <= Vvalue <= 5000`, and after `checkA`,
`0 <= Avalue <= 5000`, for every prior state; a successful `readva` stores the
two 16-bit values of the response as they are, between -32768 and 32767, and
the next calls of `checkV` and `checkA` bring them into `[0, 5000]`. -/
theorem setpoint_writers_range (h : RotaryH) (pin1 pin2 : Nat) (garbage resp : List Nat)
    (s : State) :
    (0 ≤ (checkV h pin1 s).Vvalue ∧ (checkV h pin1 s).Vvalue ≤ 5000) ∧
    (0 ≤ (checkA h pin2 s).Avalue ∧ (checkA h pin2 s).Avalue ≤ 5000) ∧
    ((readva garbage resp s).1 = 1 →
      (readva garbage resp s).2.Vvalue =
          wrap16 ((((readva_received garbage resp s).getD 3 0 <<< 8) |||
            (readva_received garbage resp s).getD 4 0 : Nat) : Int) ∧
        (readva garbage resp s).2.Avalue =
          wrap16 ((((readva_received garbage resp s).getD 5 0 <<< 8) |||
            (readva_received garbage resp s).getD 6 0 : Nat) : Int) ∧
        -32768 ≤ (readva garbage resp s).2.Vvalue ∧ (readva garbage resp s).2.Vvalue ≤ 32767 ∧
        -32768 ≤ (readva garbage resp s).2.Avalue ∧ (readva garbage resp s).2.Avalue ≤ 32767) ∧
    (0 ≤ (TIMER0_OVF h pin1 pin2 (readva garbage resp s).2).Vvalue ∧
      (TIMER0_OVF h pin1 pin2 (readva garbage resp s).2).Vvalue ≤ 5000 ∧
      0 ≤ (TIMER0_OVF h pin1 pin2 (readva garbage resp s).2).Avalue ∧
      (TIMER0_OVF h pin1 pin2 (readva garbage resp s).2).Avalue ≤ 5000) := by
  refine ⟨checkV_range h pin1 s, checkA_range h pin2 s, ?_, ?_⟩
  · intro hok
    obtain ⟨hv, ha⟩ := readva_values garbage resp s hok
    refine ⟨hv, ha, ?_, ?_, ?_, ?_⟩
    · rw [hv]; unfold wrap16; omega
    · rw [hv]; unfold wrap16; omega
    · rw [ha]; unfold wrap16; omega
    · rw [ha]; unfold wrap16; omega
  · have hA := checkA_range h pin2 (checkV h pin1 (readva garbage resp s).2)
    have hfr := checkA_frame h pin2 (checkV h pin1 (readva garbage resp s).2)
    have hV := checkV_range h pin1 (readva garbage resp s).2
    have e1 : (TIMER0_OVF h pin1 pin2 (readva garbage resp s).2).Vvalue =
        (checkA h pin2 (checkV h pin1 (readva garbage resp s).2)).Vvalue := rfl
    have e2 : (TIMER0_OVF h pin1 pin2 (readva garbage resp s).2).Avalue =
        (checkA h pin2 (checkV h pin1 (readva garbage resp s).2)).Avalue := rfl
    rw [e1, e2, hfr.2.2]
    exact ⟨hV.1, hV.2, hA.1, hA.2⟩

theorem setpoint_writers_range_witness :
    (readva exampleGarbage [0x01, 0x03, 0x04, 0x13, 0x89, 0xFF, 0xFF, 0x2E, 0xED]
        exampleState).2.Vvalue = 5001 ∧
      (readva exampleGarbage [0x01, 0x03, 0x04, 0x13, 0x89, 0xFF, 0xFF, 0x2E, 0xED]
        exampleState).2.Avalue = -1 :=
  ⟨((setpoint_writers_range exampleRotary 3 12 exampleGarbage
      [0x01, 0x03, 0x04, 0x13, 0x89, 0xFF, 0xFF, 0x2E, 0xED] exampleState).2.2.1
        (by decide)).1.trans (by decide),
    ((setpoint_writers_range exampleRotary 3 12 exampleGarbage
      [0x01, 0x03, 0x04, 0x13, 0x89, 0xFF, 0xFF, 0x2E, 0xED] exampleState).2.2.1
        (by decide)).2.1.trans (by decide)⟩

/-- C16: with no byte on the channel the check is made on the uninitialised
buffer.  When that buffer still holds an earlier valid response, `readva`
returns 1 and overwrites both setpoints, and `readcc` sets the indicator bit;
an all-zero buffer is rejected. -/
theorem no_data_stale_buffer :
    (uart_getc (delay_rx [] (send8 va_frame (uart_flush exampleState.uart)))).1 = UART_NO_DATA ∧
    (readva staleGarbage [] { exampleState with Vvalue := 1250, Avalue := 600 }).1 = 1 ∧
    (readva staleGarbage [] { exampleState with Vvalue := 1250, Avalue := 600 }).2.Vvalue
      = 1200 ∧
    (readva staleGarbage [] { exampleState with Vvalue := 1250, Avalue := 600 }).2.Avalue
      = 500 ∧
    (readcc staleGarbageCC [] exampleState).PORTD.testBit CCLED = true ∧
    exampleState.PORTD.testBit CCLED = false ∧
    (readva (List.replicate 15 0) [] exampleState).1 = 0 ∧
    (readcc (List.replicate 15 0) [] { exampleState with PORTD := 0x08 }).PORTD = 0x08 := by
  decide

/-- C17: for every sequence of `n` bytes available on the channel, the receive
loop of `readva` and of `readcc` ends by its own tests, stores exactly the
first `min n 15` bytes at the indices `0 .. min n 15 - 1` of the 15-byte buffer
in arrival order and leaves the other elements as they were, writes at no
index of 15 or more, and calls `uart_flush` exactly when 15 bytes have been
stored. -/
theorem receive_loop_bounded (garbage rx tx : List Nat) (hg : garbage.length = 15)
    (hb : ∀ b ∈ rx, b < 256) :
    recv garbage ⟨rx, tx⟩ =
      (min rx.length 15, rx.take 15 ++ garbage.drop (min rx.length 15), ⟨[], tx⟩) ∧
    (recv garbage ⟨rx, tx⟩).2.1.length = 15 ∧
    (∀ k : Nat, k < min rx.length 15 → (recv garbage ⟨rx, tx⟩).2.1.getD k 0 = rx.getD k 0) ∧
    (∀ k : Nat, min rx.length 15 ≤ k →
      (recv garbage ⟨rx, tx⟩).2.1.getD k 0 = garbage.getD k 0) ∧
    (recv_trace ⟨rx, tx⟩).1 = List.range (min rx.length 15) ∧
    (∀ i ∈ (recv_trace ⟨rx, tx⟩).1, i < 15) ∧
    ((recv_trace ⟨rx, tx⟩).2 = true ↔ (recv garbage ⟨rx, tx⟩).1 = 15) ∧
    (∀ (fuel b : Nat) (rest : List Nat), 15 ≤ fuel → rx = b :: rest →
      recv_loop fuel (b % 256) 0 garbage ⟨rest, tx⟩ = recv garbage ⟨rx, tx⟩) ∧
    (∀ s : State, readva_recv garbage rx s =
        recv garbage ⟨rx, s.uart.tx ++ [0x01, 0x03, 0x00, 0x00, 0x00, 0x02, 0xC4, 0x0B]⟩ ∧
      readcc_recv garbage rx s =
        recv garbage ⟨rx, s.uart.tx ++ [0x01, 0x03, 0x00, 0x08, 0x00, 0x01, 0x05, 0xC8]⟩) := by
  have hrecv : recv garbage ⟨rx, tx⟩ =
      (min rx.length 15, rx.take 15 ++ garbage.drop (min rx.length 15), ⟨[], tx⟩) := by
    rw [recv_spec garbage rx tx hg,
      map_mod_of_lt (rx.take 15) (fun b hm => hb b (List.mem_of_mem_take hm))]
  have htr := recv_trace_spec rx tx
  have hlen : (rx.take 15).length = min rx.length 15 := by
    rw [List.length_take]; omega
  refine ⟨hrecv, ?_, ?_, ?_, ?_, ?_, ?_, ?_, ?_⟩
  · rw [hrecv]
    simp only [List.length_append, List.length_drop, hlen, hg]
    omega
  · intro k hk
    rw [hrecv]
    simp only
    rw [List.getD_append _ _ _ _ (by rw [hlen]; exact hk)]
    simp only [List.getD_eq_getElem?_getD]
    rw [List.getElem?_take_of_lt (by omega)]
  · intro k hk
    rw [hrecv]
    simp only
    rw [List.getD_append_right _ _ _ _ (by rw [hlen]; exact hk), hlen]
    simp only [List.getD_eq_getElem?_getD, List.getElem?_drop]
    congr 2
    omega
  · rw [htr]
  · intro i hi
    rw [htr] at hi
    simp only [List.mem_range] at hi
    omega
  · rw [htr, hrecv]
    simp only [decide_eq_true_eq]
    omega
  · intro fuel b rest hf hrx
    subst hrx
    rw [recv_loop_fuel garbage rest tx b fuel hg hf]
    simp only [recv, uart_getc]
    rw [if_pos (byte_and_no_data b)]
    rfl
  · intro s
    constructor
    · rw [readva_recv, send8_eq]
      rfl
    · rw [readcc_recv, send8_eq]
      rfl

theorem receive_loop_bounded_witness :
    recv exampleGarbage ⟨List.range 20, []⟩ =
      (15, [0, 1, 2, 3, 4, 5, 6, 7, 8, 9, 10, 11, 12, 13, 14], ⟨[], []⟩) ∧
    (recv_trace ⟨exampleResponse, []⟩).1 = [0, 1, 2, 3, 4, 5, 6, 7, 8] ∧
    ((recv_trace ⟨exampleResponse, []⟩).2 = true ↔
      (recv exampleGarbage ⟨exampleResponse, []⟩).1 = 15) :=
  ⟨(receive_loop_bounded exampleGarbage (List.range 20) [] (by decide) (by decide)).1.trans
      (by rfl),
    (receive_loop_bounded exampleGarbage exampleResponse [] (by decide)
      (by decide)).2.2.2.2.1.trans (by decide),
    (receive_loop_bounded exampleGarbage exampleResponse [] (by decide)
      (by decide)).2.2.2.2.2.2.1⟩

/-- C19: for a 16-bit `mAmps`, the high byte `(mAmps>>8) % 0xFF` that `setamps`
writes equals the bitmask form `(mAmps>>8) & 0xFF` exactly when
`mAmps < 0xFF00`, in particular for every setpoint 0..5000; on that range
`setamps` transmits the write request for register `0x0001`, the frame
`setvolts` builds for register `0x0000`; from `0xFF00` on the high byte `0xFF`
is sent as `0x00`. -/
theorem setamps_modulo_vs_mask (mAmps : Nat) (h16 : mAmps < 65536) (u : Uart) :
    ((mAmps >>> 8) % 0xFF = (mAmps >>> 8) &&& 0xFF ↔ mAmps < 0xFF00) ∧
    (mAmps ≤ 5000 → (mAmps >>> 8) % 0xFF = (mAmps >>> 8) &&& 0xFF) ∧
    (mAmps < 0xFF00 → (setamps mAmps u).tx = u.tx ++ write_request 0x0001 mAmps) ∧
    (setvolts mAmps u).tx = u.tx ++ write_request 0x0000 mAmps ∧
    (0xFF00 ≤ mAmps → (mAmps >>> 8) &&& 0xFF = 0xFF ∧ (mAmps >>> 8) % 0xFF = 0x00 ∧
      (amps_frame mAmps).getD 4 0 = 0x00) := by
  have hs : mAmps >>> 8 = mAmps / 256 := Nat.shiftRight_eq_div_pow mAmps 8
  have hiff : (mAmps >>> 8) % 0xFF = (mAmps >>> 8) &&& 0xFF ↔ mAmps < 0xFF00 := by
    rw [and_0xFF_eq_mod, hs]
    constructor
    · intro h
      omega
    · intro h
      omega
  refine ⟨hiff, fun h => hiff.2 (by omega), ?_, ?_, ?_⟩
  · intro h
    rw [setamps, amps_frame_eq mAmps h, send8_write_request]
  · rw [setvolts, volts_frame_eq, send8_write_request]
  · intro h
    have hm : (mAmps >>> 8) % 0xFF = 0 := by
      rw [hs]; omega
    refine ⟨by rw [and_0xFF_eq_mod, hs]; omega, hm, ?_⟩
    simp only [amps_frame, List.replicate, List.set, List.getD_cons_zero, List.getD_cons_succ, hm]

theorem setamps_modulo_vs_mask_witness :
    (setamps 500 ⟨[], []⟩).tx = [0x01, 0x06, 0x00, 0x01, 0x01, 0xF4, 0xD8, 0x1D] ∧
    (amps_frame 0xFFFF).getD 4 0 = 0x00 :=
  ⟨((setamps_modulo_vs_mask 500 (by decide) ⟨[], []⟩).2.2.1 (by decide)).trans (by decide),
    ((setamps_modulo_vs_mask 0xFFFF (by decide) ⟨[], []⟩).2.2.2.2 (by decide)).2.2⟩

/-- C20: for every 7-byte payload `p` and every one of the 72 bit positions of
the frame `p` followed by the low and the high byte of `crc16(p)`, the frame
with that bit flipped makes `readva` return 0 and keep both setpoints; and
every single-bit flip of a valid 7-byte response to `readcc` leaves the output
register, hence the indicator, unchanged. -/
theorem single_bit_flip_rejected (garbage : List Nat) (s : State) (hg : garbage.length = 15) :
    (∀ (p : List Nat) (pos : Nat), p.length = 7 → (∀ b ∈ p, b < 256) → pos < 72 →
      (readva garbage (flip_bit (p ++ [crc16 p 7 &&& 0xFF, crc16 p 7 >>> 8]) pos) s).1 = 0 ∧
        (readva garbage (flip_bit (p ++ [crc16 p 7 &&& 0xFF, crc16 p 7 >>> 8]) pos)
          s).2.Vvalue = s.Vvalue ∧
        (readva garbage (flip_bit (p ++ [crc16 p 7 &&& 0xFF, crc16 p 7 >>> 8]) pos)
          s).2.Avalue = s.Avalue) ∧
    (∀ (q : List Nat) (pos : Nat), q.length = 5 → (∀ b ∈ q, b < 256) → pos < 56 →
      (readcc garbage (flip_bit (q ++ [crc16 q 5 &&& 0xFF, crc16 q 5 >>> 8]) pos) s).PORTD =
          s.PORTD ∧
        (readcc garbage (flip_bit (q ++ [crc16 q 5 &&& 0xFF, crc16 q 5 >>> 8]) pos)
          s).PORTD.testBit CCLED = s.PORTD.testBit CCLED) := by
  refine ⟨?_, ?_⟩
  · intro p pos hp hb hpos
    obtain ⟨h1, h2, h3⟩ := flipped_frame_fails p (by omega) hb pos (by omega)
    rw [hp] at h1 h2 h3
    exact readva_reject garbage _ s hg h1 h2 h3
  · intro q pos hq hb hpos
    obtain ⟨h1, h2, h3⟩ := flipped_frame_fails q (by omega) hb pos (by omega)
    rw [hq] at h1 h2 h3
    have h := readcc_reject garbage _ s hg h1 h2 h3
    exact ⟨h, by rw [h]⟩

theorem single_bit_flip_rejected_witness :
    (readva exampleGarbage [0x01, 0x03, 0x04, 0x04, 0xB0, 0x01, 0xF4, 0xFA, 0xF3]
        exampleState).1 = 1 ∧
    (readva exampleGarbage [0x01, 0x03, 0x04, 0x04, 0xB4, 0x01, 0xF4, 0xFA, 0xF3]
        exampleState).1 = 0 ∧
    (readcc exampleGarbage [0x01, 0x03, 0x02, 0x00, 0x01, 0x79, 0x04]
        exampleState).PORTD = 0 :=
  ⟨by decide,
    (show (readva exampleGarbage (flip_bit ([0x01, 0x03, 0x04, 0x04, 0xB0, 0x01, 0xF4] ++
        [crc16 [0x01, 0x03, 0x04, 0x04, 0xB0, 0x01, 0xF4] 7 &&& 0xFF,
          crc16 [0x01, 0x03, 0x04, 0x04, 0xB0, 0x01, 0xF4] 7 >>> 8]) 34) exampleState).1 = 0
      from ((single_bit_flip_rejected exampleGarbage exampleState (by decide)).1
        [0x01, 0x03, 0x04, 0x04, 0xB0, 0x01, 0xF4] 34 (by decide) (by decide) (by decide)).1),
    (show (readcc exampleGarbage (flip_bit ([0x01, 0x03, 0x02, 0x00, 0x01] ++
        [crc16 [0x01, 0x03, 0x02, 0x00, 0x01] 5 &&& 0xFF,
          crc16 [0x01, 0x03, 0x02, 0x00, 0x01] 5 >>> 8]) 55) exampleState).PORTD = 0
      from ((single_bit_flip_rejected exampleGarbage exampleState (by decide)).2
        [0x01, 0x03, 0x02, 0x00, 0x01] 55 (by decide) (by decide) (by decide)).1)⟩

end DPS5005
